import Mathlib

/-!
Shallow embedding of the `m_engine` crate of the m_sim repository:
geometry primitives (vec2.rs, geometric_primitives.rs, polygon.rs),
collision math (math_core.rs, collision_utils.rs) and the event-driven
motion resolver (motion_resolver.rs), translated over exact real
arithmetic.  Rust `f64` values are modelled as real numbers, Rust
`Option` as Lean `Option`, a panic (`expect`/`unwrap` failure inside a
fallible computation) as `none`, and the `rand`-based thermal sampling
as an explicit parameter standing for the drawn value.
-/

namespace MSim

noncomputable section

/-- `DISTANCE_EPS` from prelude.rs. -/
def DISTANCE_EPS : ℝ := 1 / 10 ^ 8

/-- `DOUBLE_COMPARE_EPS_STRICT` from prelude.rs. -/
def DOUBLE_COMPARE_EPS_STRICT : ℝ := 1 / 10 ^ 10

/-- `TIME_SEC_EPS` from prelude.rs. -/
def TIME_SEC_EPS : ℝ := 1 / 10 ^ 6

/-- 2D double precision vector (`Vec2`, vec2.rs), components as reals. -/
structure Vec2 where
  x : ℝ
  y : ℝ

namespace Vec2

/-- `Vec2::ZERO`. -/
def zero : Vec2 := ⟨0, 0⟩

instance : Inhabited Vec2 := ⟨zero⟩

/-- Componentwise addition (`impl Add for Vec2`). -/
def add (a b : Vec2) : Vec2 := ⟨a.x + b.x, a.y + b.y⟩

instance : Add Vec2 := ⟨add⟩

/-- Componentwise subtraction (`impl Sub for Vec2`). -/
def sub (a b : Vec2) : Vec2 := ⟨a.x - b.x, a.y - b.y⟩

instance : Sub Vec2 := ⟨sub⟩

/-- Negation (`impl Neg for Vec2`). -/
def neg (a : Vec2) : Vec2 := ⟨-a.x, -a.y⟩

instance : Neg Vec2 := ⟨neg⟩

/-- Scaling by a scalar on the right (`impl Mul<f64> for Vec2`). -/
def smul (v : Vec2) (s : ℝ) : Vec2 := ⟨v.x * s, v.y * s⟩

instance : HMul Vec2 ℝ Vec2 := ⟨smul⟩

/-- Division by a scalar (`impl Div<f64> for Vec2`). -/
def sdiv (v : Vec2) (s : ℝ) : Vec2 := ⟨v.x / s, v.y / s⟩

instance : HDiv Vec2 ℝ Vec2 := ⟨sdiv⟩

/-- `Vec2::dot`. -/
def dot (a b : Vec2) : ℝ := a.x * b.x + a.y * b.y

/-- `Vec2::cross`. -/
def cross (a b : Vec2) : ℝ := a.x * b.y - a.y * b.x

/-- `Vec2::length_sq`. -/
def length_sq (v : Vec2) : ℝ := v.x ^ 2 + v.y ^ 2

/-- `Vec2::length`. -/
def length (v : Vec2) : ℝ := Real.sqrt (v.x ^ 2 + v.y ^ 2)

/-- `Vec2::rotated_90_cw`. -/
def rotated_90_cw (v : Vec2) : Vec2 := ⟨v.y, -v.x⟩

/-- `Vec2::rotated_90_ccw`. -/
def rotated_90_ccw (v : Vec2) : Vec2 := ⟨-v.y, v.x⟩

/-- Modelled from the spec: `Vec2::normalized` is called throughout the
provided sources but its definition is not among them.  Spec §3 describes
it as "normalize-or-none (returns nothing when length is numerically
zero)"; in the exact-real model the length is numerically zero exactly
when it is zero. -/
def normalized (v : Vec2) : Option Vec2 :=
  if v.length = 0 then none else some (v.sdiv v.length)

end Vec2

/-- Rust `Option::<Vec2>::unwrap`.  In every reachable use in the sources
the option is populated; the panic case is mapped to the zero vector so
the embedding stays total. -/
def unwrapOr0 (o : Option Vec2) : Vec2 := o.getD Vec2.zero

/-- `math_core::approx_eq`. -/
def approx_eq (a b epsilon : ℝ) : Prop := |a - b| < epsilon

/-- `math_core::solve_quadratic`. -/
def solve_quadratic (a b c : ℝ) : Option (ℝ × ℝ) :=
  if b * b - 4 * a * c < 0 then none
  else
    some ((-b + Real.sqrt (b * b - 4 * a * c)) / (2 * a),
          (-b - Real.sqrt (b * b - 4 * a * c)) / (2 * a))

/-- `math_core::kinetic_energy_from_velocity`. -/
def kinetic_energy_from_velocity (mass velocity : ℝ) : ℝ :=
  0.5 * mass * velocity * velocity

/-- `math_core::velocity_from_kinetic_energy`. -/
def velocity_from_kinetic_energy (mass energy : ℝ) : ℝ :=
  Real.sqrt (2 * energy / mass)

/-- `math_core::temp_from_energy`. -/
def temp_from_energy (energy : ℝ) : ℝ := energy * 3 / 2

/-- `math_core::energy_from_temp`. -/
def energy_from_temp (temp : ℝ) : ℝ := temp * 2 / 3

/-- `Plane` (geometric_primitives.rs). -/
structure Plane where
  normal : Vec2
  distance : ℝ

/-- `Plane::distance(point)`: signed distance, positive in front
(the field and the method share a name in Rust; the method is rendered
as `distanceTo`). -/
def Plane.distanceTo (p : Plane) (point : Vec2) : ℝ :=
  p.normal.dot point - p.distance

/-- `LineSegment` (geometric_primitives.rs).  Rust's field `end` is a
Lean keyword and is rendered as `stop`. -/
structure LineSegment where
  begin : Vec2
  stop : Vec2

namespace LineSegment

/-- `LineSegment::direction`. -/
def direction (s : LineSegment) : Option Vec2 :=
  (s.stop - s.begin).normalized

/-- `LineSegment::normal`. -/
def normal (s : LineSegment) : Option Vec2 :=
  (s.direction).map Vec2.rotated_90_cw

/-- `LineSegment::plane`. -/
def plane (s : LineSegment) : Option Plane :=
  (s.normal).map (fun n => ⟨n, n.dot s.begin⟩)

/-- `LineSegment::offseted`. -/
def offseted (s : LineSegment) (offset : ℝ) : Option LineSegment :=
  (s.normal).map (fun n => ⟨s.begin + n * offset, s.stop + n * offset⟩)

end LineSegment

/-- `Polygon` (polygon.rs). -/
structure Polygon where
  points : List Vec2

namespace Polygon

/-- `Polygon::num_edges`. -/
def num_edges (p : Polygon) : ℕ := p.points.length

/-- `Polygon::edge` (out-of-range indices panic in Rust and are mapped
to the zero vector; every call site uses indices below `num_edges`). -/
def edge (p : Polygon) (index : ℕ) : LineSegment :=
  ⟨p.points.getD index Vec2.zero,
   p.points.getD ((index + 1) % p.points.length) Vec2.zero⟩

/-- `Polygon::is_point_outside_corner`.  The Rust code panics on a
degenerate adjacent edge (`expect`); that case is modelled as `none`. -/
def is_point_outside_corner (p : Polygon) (vertex_index : ℕ) (point : Vec2) :
    Option Bool :=
  let edge1 := p.edge ((vertex_index + p.num_edges - 1) % p.num_edges)
  let edge2 := p.edge vertex_index
  match edge1.plane, edge2.plane with
  | some plane1, some plane2 =>
      let convex := (edge1.stop - edge1.begin).cross (edge2.stop - edge2.begin) > 0
      some (if convex then
              decide (plane1.distanceTo point > 0 ∨ plane2.distanceTo point > 0)
            else
              decide (plane1.distanceTo point > 0 ∧ plane2.distanceTo point > 0))
  | _, _ => none

end Polygon

/-! ## collision_utils.rs -/

/-- `collision_utils::find_circle_vs_origin_collision`. -/
def find_circle_vs_origin_collision (center1 : Vec2) (radius1 : ℝ)
    (velocity1 : Vec2) : Option ℝ :=
  if velocity1.dot center1 ≥ 0 then none
  else
    match solve_quadratic
        (velocity1.x * velocity1.x + velocity1.y * velocity1.y)
        (2 * (center1.x * velocity1.x + center1.y * velocity1.y))
        (center1.x * center1.x + center1.y * center1.y - radius1 * radius1) with
    | some (t1, t2) =>
        let t := min t1 t2
        let res_center := center1 + velocity1 * t
        let v1 := unwrapOr0 res_center.normalized
        let v2 := unwrapOr0 velocity1.normalized
        if |v1.dot v2| < DOUBLE_COMPARE_EPS_STRICT then none
        else some t
    | none => none

/-- Reference definition following the spec's words (§4.2, circle vs
fixed point at origin), for comparison with
`find_circle_vs_origin_collision`: no collision when `v·c ≥ 0`;
otherwise solve `(v·v)t² + 2(c·v)t + (c·c − r²) = 0`; no real roots
means no collision; otherwise the smaller root `t`, except that the
root is rejected when, at the contact point `c + v·t`, the absolute dot
product of the normalized outward radial direction and the normalized
velocity is below the strict epsilon. -/
def circle_vs_origin_reference (c : Vec2) (r : ℝ) (v : Vec2) : Option ℝ :=
  if v.dot c ≥ 0 then none
  else
    let a := v.dot v
    let b := 2 * (c.dot v)
    let k := c.dot c - r * r
    if b * b - 4 * a * k < 0 then none
    else
      let t := (-b - Real.sqrt (b * b - 4 * a * k)) / (2 * a)
      let contact := c + v * t
      if |(unwrapOr0 contact.normalized).dot (unwrapOr0 v.normalized)| <
          DOUBLE_COMPARE_EPS_STRICT then none
      else some t

/-- `collision_utils::find_particle_vs_particle_collision`. -/
def find_particle_vs_particle_collision (center1 : Vec2) (radius1 : ℝ)
    (velocity1 : Vec2) (center2 : Vec2) (radius2 : ℝ) (velocity2 : Vec2) :
    Option ℝ :=
  find_circle_vs_origin_collision (center1 - center2) (radius1 + radius2)
    (velocity1 - velocity2)

/-- `collision_utils::find_point_vs_plane_collision`. -/
def find_point_vs_plane_collision (point velocity : Vec2) (plane : Plane) :
    Option ℝ :=
  let approach_speed := -(velocity.dot plane.normal)
  if approach_speed ≤ 0 then none
  else some ((point.dot plane.normal - plane.distance) / approach_speed)

/-- `collision_utils::find_point_vs_segment_collision`. -/
def find_point_vs_segment_collision (point velocity : Vec2)
    (segment : LineSegment) : Option ℝ :=
  match segment.plane with
  | none => none
  | some plane =>
    match find_point_vs_plane_collision point velocity plane with
    | none => none
    | some t =>
        let collision_point := point + velocity * t
        if (collision_point - segment.begin).dot (collision_point - segment.stop) ≤ 0
        then some t else none

/-- `collision_utils::particles_collision_normal`. -/
def particles_collision_normal (center1 velocity1 center2 velocity2 : Vec2) :
    Option Vec2 :=
  match (center2 - center1).normalized with
  | some normal => some normal
  | none => (velocity2 - velocity1).normalized

/-- `collision_utils::collision_impulse`. -/
def collision_impulse (mass1 : ℝ) (velocity1 : Vec2) (mass2 : ℝ)
    (velocity2 : Vec2) (collision_normal : Vec2)
    (coefficient_of_restitution : ℝ) : ℝ :=
  let relative_velocity := velocity1 - velocity2
  let approach_velocity := -(relative_velocity.dot collision_normal)
  let impulse := approach_velocity * (1 + coefficient_of_restitution)
  impulse / (1 / mass1 + 1 / mass2)

/-- `collision_utils::collision_impulse_stationary`. -/
def collision_impulse_stationary (mass1 : ℝ) (velocity1 : Vec2)
    (collision_normal : Vec2) (coefficient_of_restitution : ℝ) : ℝ :=
  let approach_velocity := -(velocity1.dot collision_normal)
  let impulse := approach_velocity * (1 + coefficient_of_restitution)
  impulse * mass1

/-- `collision_utils::apply_impulse`. -/
def apply_impulse (mass : ℝ) (velocity impulse : Vec2) : Vec2 :=
  velocity + impulse / mass

/-- `collision_utils::particles_collision_separation_velocity`. -/
def particles_collision_separation_velocity (velocity1 : Vec2) (mass1 : ℝ)
    (velocity2 : Vec2) (mass2 : ℝ) (collision_normal : Vec2)
    (coefficient_of_restitution : ℝ) : Vec2 × Vec2 :=
  let impulse := collision_impulse mass1 velocity1 mass2 velocity2
    collision_normal coefficient_of_restitution
  let new_velocity1 := apply_impulse mass1 velocity1 (collision_normal * impulse)
  let new_velocity2 := apply_impulse mass2 velocity2 (-collision_normal * impulse)
  (new_velocity1, new_velocity2)

/-- The elastic reference bounce computed inside
`particles_vs_wall_collision_separation_velocity` (local `res_v`). -/
def wall_bounce_velocity (velocity1 : Vec2) (mass1 : ℝ)
    (collision_normal : Vec2) : Vec2 :=
  apply_impulse mass1 velocity1
    (collision_normal * collision_impulse_stationary mass1 velocity1 collision_normal 1)

/-- The energy delta traded with the wall inside
`particles_vs_wall_collision_separation_velocity` (local `delta_e`);
`sampled_temperature` stands for the value drawn by
`math_core::random_0_to_mean(wall_temperature)`. -/
def wall_delta_e (velocity1 : Vec2) (mass1 : ℝ) (collision_normal : Vec2)
    (wall_heat_conductivity sampled_temperature : ℝ) (direction : Vec2) : ℝ :=
  let wall_energy := energy_from_temp sampled_temperature
  let particle_energy := kinetic_energy_from_velocity mass1 velocity1.length
  let angle_dot := -(direction.dot collision_normal)
  let sq_angle_dot := angle_dot * angle_dot
  (wall_energy - particle_energy) * sq_angle_dot * wall_heat_conductivity

/-- The energy-adjusted target speed inside
`particles_vs_wall_collision_separation_velocity` (local `expected_velocity`). -/
def wall_expected_velocity (velocity1 : Vec2) (mass1 : ℝ)
    (collision_normal : Vec2) (wall_heat_conductivity sampled_temperature : ℝ)
    (direction : Vec2) : ℝ :=
  velocity_from_kinetic_energy mass1
    (kinetic_energy_from_velocity mass1 velocity1.length +
      wall_delta_e velocity1 mass1 collision_normal wall_heat_conductivity
        sampled_temperature direction)

/-- Coefficient `a` of the energy-matching quadratic. -/
def wallQuadA (collision_normal : Vec2) : ℝ :=
  collision_normal.x * collision_normal.x + collision_normal.y * collision_normal.y

/-- Coefficient `b` of the energy-matching quadratic. -/
def wallQuadB (velocity1 : Vec2) (mass1 : ℝ) (collision_normal : Vec2) : ℝ :=
  let res_v := wall_bounce_velocity velocity1 mass1 collision_normal
  2 * (collision_normal.x * res_v.x + collision_normal.y * res_v.y)

/-- Coefficient `c` of the energy-matching quadratic. -/
def wallQuadC (velocity1 : Vec2) (mass1 : ℝ) (collision_normal : Vec2)
    (wall_heat_conductivity sampled_temperature : ℝ) (direction : Vec2) : ℝ :=
  let res_v := wall_bounce_velocity velocity1 mass1 collision_normal
  let expected_velocity := wall_expected_velocity velocity1 mass1
    collision_normal wall_heat_conductivity sampled_temperature direction
  res_v.x * res_v.x + res_v.y * res_v.y - expected_velocity * expected_velocity

/-- `collision_utils::particles_vs_wall_collision_separation_velocity`.
The parameter `sampled_temperature` stands for the value drawn by
`math_core::random_0_to_mean(wall_temperature)` (the one effectful call
in the function); the `expect("No solution for dv")` panic is modelled
as `none`. -/
def particles_vs_wall_collision_separation_velocity (velocity1 : Vec2)
    (mass1 : ℝ) (collision_normal : Vec2)
    (wall_temperature wall_heat_conductivity sampled_temperature : ℝ) :
    Option Vec2 :=
  match velocity1.normalized with
  | none => some velocity1
  | some direction =>
      let res_v := wall_bounce_velocity velocity1 mass1 collision_normal
      let a := wallQuadA collision_normal
      let b := wallQuadB velocity1 mass1 collision_normal
      let c := wallQuadC velocity1 mass1 collision_normal
        wall_heat_conductivity sampled_temperature direction
      match solve_quadratic a b c with
      | none => none
      | some (dv1, dv2) =>
          let dv := if |dv1| < |dv2| then dv1 else dv2
          some (res_v + collision_normal * dv)

/-- One step of the `take` lambda in
`collision_utils::find_particle_vs_polygon_collision`: keep the earlier
collision, strictly earlier replaces. -/
def takeCandidate (result : Option (ℝ × Vec2)) (collision : ℝ × Vec2) :
    Option (ℝ × Vec2) :=
  match result with
  | some (t, n) => if collision.1 < t then some collision else some (t, n)
  | none => some collision

/-- The candidate produced by one vertex in the vertex loop of
`find_particle_vs_polygon_collision`.  A degenerate adjacent edge makes
`is_point_outside_corner` panic in Rust; that case yields no candidate
here. -/
def vertex_candidate (center : Vec2) (radius : ℝ) (velocity : Vec2)
    (polygon : Polygon) (vertex_index : ℕ) (vertex : Vec2) :
    Option (ℝ × Vec2) :=
  if polygon.is_point_outside_corner vertex_index center = some true then
    let local_center := center - vertex
    match find_circle_vs_origin_collision local_center radius velocity with
    | some t =>
        let expected_collision := local_center + velocity * t
        match particles_collision_normal Vec2.zero Vec2.zero
            expected_collision velocity with
        | some normal => some (t, normal)
        | none => none
    | none => none
  else none

/-- The candidate produced by one edge in the edge loop of
`find_particle_vs_polygon_collision`.  A degenerate edge makes the Rust
code panic (`expect("Non 0 edge is expected")`); that case yields no
candidate here. -/
def edge_candidate (center : Vec2) (radius : ℝ) (velocity : Vec2)
    (edge : LineSegment) : Option (ℝ × Vec2) :=
  match edge.plane with
  | none => none
  | some plane =>
      let center_depth := -(plane.distanceTo center)
      if center_depth ≥ 0 then none
      else
        match edge.offseted radius with
        | none => none
        | some off_edge =>
            match find_point_vs_segment_collision center velocity off_edge with
            | some t => some (t, plane.normal)
            | none => none

/-- `collision_utils::find_particle_vs_polygon_collision`: fold the
vertex candidates (in vertex order) then the edge candidates (in edge
order) through `takeCandidate`. -/
def find_particle_vs_polygon_collision (center : Vec2) (radius : ℝ)
    (velocity : Vec2) (polygon : Polygon) : Option (ℝ × Vec2) :=
  let vcands := polygon.points.enum.map
    (fun p => vertex_candidate center radius velocity polygon p.1 p.2)
  let ecands := (List.range polygon.num_edges).map
    (fun i => edge_candidate center radius velocity (polygon.edge i))
  (vcands ++ ecands).foldl
    (fun res c => match c with
      | none => res
      | some col => takeCandidate res col) none

/-! ## Data holders: particle.rs, particle_class.rs, wall.rs, wall_class.rs -/

/-- `ClassId` (prelude.rs, a `u8`), modelled as a natural number. -/
abbrev ClassId := ℕ

/-- `Particle` (particle.rs).  Rust's private field `class` is a Lean
keyword and is rendered as `class_id` (accessor `Particle::class`). -/
structure Particle where
  position : Vec2
  velocity : Vec2
  class_id : ClassId

instance : Inhabited Particle := ⟨⟨Vec2.zero, Vec2.zero, 0⟩⟩

/-- `ParticleClass` (particle_class.rs). -/
structure ParticleClass where
  name : String
  mass : ℝ
  radius : ℝ

/-- `WallClass` (wall_class.rs of the provided sources): a name and a
coefficient of restitution. -/
structure WallClass where
  name : String
  coefficient_of_restitution : ℝ

/-- `WallClass::new`. -/
def WallClass.new (name : String) (coefficient_of_restitution : ℝ) : WallClass :=
  ⟨name, coefficient_of_restitution⟩

/-- `Wall` (wall.rs); field `class` rendered as `class_id`. -/
structure Wall where
  polygon : Polygon
  class_id : ClassId

/-! ## motion_resolver.rs

The class `HashMap` lookups in the scheduler are always followed by
`unwrap` (an unknown class id is a construction-time fatal error per the
spec), so the class table is modelled as a total function. -/

/-- `OtherObject` (motion_resolver.rs). -/
inductive OtherObject where
  | particle (index : ℕ)
  | wall (index : ℕ)
deriving DecidableEq

/-- `Collision` (motion_resolver.rs); the `OrderedFloat` wrapper is
dropped since reals are totally ordered. -/
structure Collision where
  particle : ℕ
  other : OtherObject
  normal : Vec2
  time : ℝ

/-- `Collision::involves_particle`. -/
def Collision.involves_particle (c : Collision) (particle_index : ℕ) : Bool :=
  decide (c.particle = particle_index) ||
    decide (c.other = OtherObject.particle particle_index)

/-- `motion_resolver::find_collisions_with_particles`; the Rust range
`lo..hi` of other indices is rendered with explicit bounds. -/
def find_collisions_with_particles (main_index lo hi : ℕ)
    (particles : List Particle) (class_map : ClassId → ParticleClass)
    (particle_times : List ℝ) (time_threshold : ℝ) : List Collision :=
  (List.range' lo (hi - lo)).filterMap (fun i =>
    if i = main_index then none
    else
      let p1 := particles.getD main_index default
      let p2 := particles.getD i default
      let pos1 := p1.position - p1.velocity * (particle_times.getD main_index 0)
      let pos2 := p2.position - p2.velocity * (particle_times.getD i 0)
      match find_particle_vs_particle_collision pos1 (class_map p1.class_id).radius
          p1.velocity pos2 (class_map p2.class_id).radius p2.velocity with
      | none => none
      | some collision_time =>
          if collision_time > particle_times.getD main_index 0 - TIME_SEC_EPS ∧
             collision_time > particle_times.getD i 0 - TIME_SEC_EPS ∧
             collision_time < time_threshold then
            match particles_collision_normal
                (pos1 + p1.velocity * collision_time) p1.velocity
                (pos2 + p2.velocity * collision_time) p2.velocity with
            | some normal =>
                some ⟨main_index, OtherObject.particle i, normal, collision_time⟩
            | none => none
          else none)

/-- `motion_resolver::find_collisions_with_walls`. -/
def find_collisions_with_walls (particle_index : ℕ) (particle : Particle)
    (particle_class : ParticleClass) (other_walls : List Wall)
    (particle_time time_threshold : ℝ) : List Collision :=
  other_walls.enum.filterMap (fun w =>
    let pos := particle.position - particle.velocity * particle_time
    match find_particle_vs_polygon_collision pos particle_class.radius
        particle.velocity w.2.polygon with
    | some (collision_time, collision_normal) =>
        if collision_time > particle_time - TIME_SEC_EPS ∧
           collision_time < time_threshold then
          some ⟨particle_index, OtherObject.wall w.1, collision_normal, collision_time⟩
        else none
    | none => none)

/-- `motion_resolver::resolve_particle_vs_particle`. -/
def resolve_particle_vs_particle (particle1 particle2 : Particle)
    (particle1_t particle2_t collision_t : ℝ) (collision_normal : Vec2)
    (velocity_resolver : Particle → Particle → Vec2 → Vec2 × Vec2) :
    Particle × Particle :=
  let p1 := { particle1 with
    position := particle1.position + particle1.velocity * (collision_t - particle1_t) }
  let p2 := { particle2 with
    position := particle2.position + particle2.velocity * (collision_t - particle2_t) }
  let nv := velocity_resolver p1 p2 collision_normal
  ({ p1 with velocity := nv.1 }, { p2 with velocity := nv.2 })

/-- `motion_resolver::resolve_particle_vs_wall`. -/
def resolve_particle_vs_wall (particle1 : Particle) (wall : Wall)
    (particle1_t collision_t : ℝ) (collision_normal : Vec2)
    (velocity_resolver : Particle → Wall → Vec2 → Vec2) : Particle :=
  let p1 := { particle1 with
    position := particle1.position + particle1.velocity * (collision_t - particle1_t) }
  { p1 with velocity := velocity_resolver p1 wall collision_normal }

/-- Pop the earliest queued collision.  Rust keeps a `BinaryHeap` of
`Reverse<Collision>`; the embedding keeps a plain list, and the pop
returns the earliest element (the first of the earliest on ties, whose
order the heap leaves unspecified) together with the rest of the queue. -/
def popMinCollision : List Collision → Option (Collision × List Collision)
  | [] => none
  | c :: rest =>
      match popMinCollision rest with
      | none => some (c, [])
      | some (m, rest') =>
          if c.time ≤ m.time then some (c, rest) else some (m, c :: rest')

/-- The mutable state of one `resolve` call: the particle slice, the
per-particle simulated times, and the event queue. -/
structure ResolverState where
  particles : List Particle
  particle_time : List ℝ
  queue : List Collision

/-- Regeneration of the candidate events of one touched particle: the
two `merge` calls at the bottom of the main loop of `resolve`. -/
def regenerate (class_map : ClassId → ParticleClass) (walls : List Wall)
    (timestep : ℝ) (particles : List Particle) (particle_time : List ℝ)
    (particle_idx : ℕ) : List Collision :=
  find_collisions_with_particles particle_idx 0 particles.length particles
      class_map particle_time timestep ++
    find_collisions_with_walls particle_idx (particles.getD particle_idx default)
      (class_map (particles.getD particle_idx default).class_id) walls
      (particle_time.getD particle_idx 0) timestep

/-- The body of the main loop of `motion_resolver::resolve` for one
popped collision: resolve it, drop the stale events of the touched
participants, and append their regenerated candidates. -/
def resolveStep (class_map : ClassId → ParticleClass) (walls : List Wall)
    (timestep : ℝ)
    (pvp : Particle → Particle → Vec2 → Vec2 × Vec2)
    (pvw : Particle → Wall → Vec2 → Vec2)
    (s : ResolverState) (collision : Collision) (rest : List Collision) :
    ResolverState :=
  match collision.other with
  | OtherObject.particle particle2_idx =>
      let pp := resolve_particle_vs_particle
        (s.particles.getD collision.particle default)
        (s.particles.getD particle2_idx default)
        (s.particle_time.getD collision.particle 0)
        (s.particle_time.getD particle2_idx 0)
        collision.time collision.normal pvp
      let particles' := (s.particles.set collision.particle pp.1).set particle2_idx pp.2
      let times' := (s.particle_time.set collision.particle collision.time).set
        particle2_idx collision.time
      let queue' := (rest.filter (fun c => !c.involves_particle collision.particle)).filter
        (fun c => !c.involves_particle particle2_idx)
      let queue'' := queue' ++
        regenerate class_map walls timestep particles' times' collision.particle ++
        regenerate class_map walls timestep particles' times' particle2_idx
      ⟨particles', times', queue''⟩
  | OtherObject.wall wall_idx =>
      let p1 := resolve_particle_vs_wall
        (s.particles.getD collision.particle default)
        (walls.getD wall_idx ⟨⟨[]⟩, 0⟩)
        (s.particle_time.getD collision.particle 0)
        collision.time collision.normal pvw
      let particles' := s.particles.set collision.particle p1
      let times' := s.particle_time.set collision.particle collision.time
      let queue' := rest.filter (fun c => !c.involves_particle collision.particle)
      let queue'' := queue' ++
        regenerate class_map walls timestep particles' times' collision.particle
      ⟨particles', times', queue''⟩

/-- The final advancement at the bottom of `resolve`: every particle is
moved to the end of the budget. -/
def finalAdvance (timestep : ℝ) (s : ResolverState) : List Particle :=
  List.zipWith
    (fun p t => { p with position := p.position + p.velocity * (timestep - t) })
    s.particles s.particle_time

/-- The main loop of `motion_resolver::resolve`, fuelled: `none` means
the fuel ran out before the queue drained. -/
def resolveLoop (class_map : ClassId → ParticleClass) (walls : List Wall)
    (timestep : ℝ) (pvp : Particle → Particle → Vec2 → Vec2 × Vec2)
    (pvw : Particle → Wall → Vec2 → Vec2) :
    ℕ → ResolverState → Option (List Particle)
  | 0, _ => none
  | fuel + 1, s =>
      match popMinCollision s.queue with
      | none => some (finalAdvance timestep s)
      | some (collision, rest) =>
          resolveLoop class_map walls timestep pvp pvw fuel
            (resolveStep class_map walls timestep pvp pvw s collision rest)

/-- The initial event queue of `resolve`: for every particle, its
collisions with the particles in front of it and with all walls, at
simulated time zero. -/
def initQueue (particles : List Particle) (class_map : ClassId → ParticleClass)
    (walls : List Wall) (timestep : ℝ) : List Collision :=
  (List.range particles.length).foldl
    (fun acc i => acc ++
      find_collisions_with_particles i (i + 1) particles.length particles
        class_map (List.replicate particles.length 0) timestep ++
      find_collisions_with_walls i (particles.getD i default)
        (class_map (particles.getD i default).class_id) walls 0 timestep) []

/-- `motion_resolver::resolve`, fuelled. -/
def resolve (particles : List Particle) (class_map : ClassId → ParticleClass)
    (walls : List Wall) (timestep : ℝ)
    (pvp : Particle → Particle → Vec2 → Vec2 × Vec2)
    (pvw : Particle → Wall → Vec2 → Vec2) (fuel : ℕ) :
    Option (List Particle) :=
  resolveLoop class_map walls timestep pvp pvw fuel
    ⟨particles, List.replicate particles.length 0,
     initQueue particles class_map walls timestep⟩

/-- The scalar the `VelocityVerletIntegrator` wall resolver reads from
the wall class table and forwards to the wall resolution routine
(velocity_verlet_integrator.rs). -/
def integrator_wall_resolver_scalar (wall_classes : ClassId → WallClass)
    (w : Wall) : ℝ :=
  (wall_classes w.class_id).coefficient_of_restitution

/-! ## Unfolding lemmas for the vector operations -/

@[simp] theorem Vec2.hmul_def (v : Vec2) (s : ℝ) : v * s = ⟨v.x * s, v.y * s⟩ := rfl

@[simp] theorem Vec2.hdiv_def (v : Vec2) (s : ℝ) : v / s = ⟨v.x / s, v.y / s⟩ := rfl

@[simp] theorem Vec2.add_def (a b : Vec2) : a + b = ⟨a.x + b.x, a.y + b.y⟩ := rfl

@[simp] theorem Vec2.sub_def (a b : Vec2) : a - b = ⟨a.x - b.x, a.y - b.y⟩ := rfl

@[simp] theorem Vec2.neg_def (a : Vec2) : -a = ⟨-a.x, -a.y⟩ := rfl

/-! ## Helper lemmas -/

theorem sqrt_of_sq (a b : ℝ) (hb : 0 ≤ b) (h : b ^ 2 = a) : Real.sqrt a = b := by
  rw [← h]
  exact Real.sqrt_sq hb

theorem length_eval (v : Vec2) (l : ℝ) (hl : 0 ≤ l) (h : v.x ^ 2 + v.y ^ 2 = l ^ 2) :
    v.length = l :=
  sqrt_of_sq _ _ hl h.symm

theorem normalized_eval (v : Vec2) (l : ℝ) (hl : 0 < l)
    (h : v.x ^ 2 + v.y ^ 2 = l ^ 2) :
    v.normalized = some ⟨v.x / l, v.y / l⟩ := by
  have hlen : v.length = l := length_eval v l hl.le h
  unfold Vec2.normalized
  rw [hlen, if_neg hl.ne']
  rfl

theorem normalized_eq_some {v d : Vec2} (h : v.normalized = some d) :
    0 < v.length ∧ d = v.sdiv v.length := by
  unfold Vec2.normalized at h
  by_cases hl : v.length = 0
  · rw [if_pos hl] at h
    exact absurd h (by simp)
  · rw [if_neg hl] at h
    have hnn : 0 ≤ v.length := Real.sqrt_nonneg _
    exact ⟨lt_of_le_of_ne hnn (Ne.symm hl), (Option.some_inj.mp h).symm⟩

theorem normalized_zero_iff (v : Vec2) : v.normalized = none ↔ v.length = 0 := by
  unfold Vec2.normalized
  by_cases hl : v.length = 0 <;> simp [hl]

theorem cross_sdiv (a b : Vec2) (s t : ℝ) :
    (a.sdiv s).cross (b.sdiv t) = a.cross b / (s * t) := by
  simp only [Vec2.cross, Vec2.sdiv]
  ring

theorem solve_quadratic_eval (a b c d sd : ℝ) (hd : b * b - 4 * a * c = d)
    (hd0 : 0 ≤ d) (hsd : Real.sqrt d = sd) :
    solve_quadratic a b c = some ((-b + sd) / (2 * a), (-b - sd) / (2 * a)) := by
  unfold solve_quadratic
  rw [hd, if_neg (not_lt.mpr hd0), hsd]

theorem solve_quadratic_none (a b c : ℝ) (hd : b * b - 4 * a * c < 0) :
    solve_quadratic a b c = none := by
  unfold solve_quadratic
  rw [if_pos hd]

theorem solve_quadratic_roots {a b c r1 r2 : ℝ} (ha : a ≠ 0)
    (h : solve_quadratic a b c = some (r1, r2)) :
    a * r1 ^ 2 + b * r1 + c = 0 ∧ a * r2 ^ 2 + b * r2 + c = 0 := by
  unfold solve_quadratic at h
  by_cases hd : b * b - 4 * a * c < 0
  · rw [if_pos hd] at h
    exact absurd h (by simp)
  · rw [if_neg hd] at h
    have hs : Real.sqrt (b * b - 4 * a * c) ^ 2 = b * b - 4 * a * c :=
      Real.sq_sqrt (not_lt.mp hd)
    obtain ⟨h1, h2⟩ := Prod.mk.injEq .. ▸ Option.some_inj.mp h
    constructor
    · rw [← h1]
      field_simp
      nlinarith [hs]
    · rw [← h2]
      field_simp
      nlinarith [hs]

theorem quadratic_root_cases {a b c r1 r2 x : ℝ} (ha : a ≠ 0)
    (h : solve_quadratic a b c = some (r1, r2))
    (hx : a * x ^ 2 + b * x + c = 0) : x = r1 ∨ x = r2 := by
  unfold solve_quadratic at h
  by_cases hd : b * b - 4 * a * c < 0
  · rw [if_pos hd] at h
    exact absurd h (by simp)
  · rw [if_neg hd] at h
    have hs : Real.sqrt (b * b - 4 * a * c) ^ 2 = b * b - 4 * a * c :=
      Real.sq_sqrt (not_lt.mp hd)
    obtain ⟨h1, h2⟩ := Prod.mk.injEq .. ▸ Option.some_inj.mp h
    have key : a * ((x - r1) * (x - r2)) = 0 := by
      rw [← h1, ← h2]
      field_simp
      linear_combination (4 * a ^ 2) * hx - a * hs
    rcases mul_eq_zero.mp key with h0 | h0
    · exact absurd h0 ha
    · rcases mul_eq_zero.mp h0 with h0 | h0
      · exact Or.inl (sub_eq_zero.mp h0)
      · exact Or.inr (sub_eq_zero.mp h0)

theorem direction_eval (s : LineSegment) (l : ℝ) (hl : 0 < l)
    (h : (s.stop.x - s.begin.x) ^ 2 + (s.stop.y - s.begin.y) ^ 2 = l ^ 2) :
    s.direction = some ⟨(s.stop.x - s.begin.x) / l, (s.stop.y - s.begin.y) / l⟩ := by
  unfold LineSegment.direction
  exact normalized_eval _ l hl h

theorem plane_eval (s : LineSegment) (l : ℝ) (hl : 0 < l)
    (h : (s.stop.x - s.begin.x) ^ 2 + (s.stop.y - s.begin.y) ^ 2 = l ^ 2) :
    s.plane = some ⟨⟨(s.stop.y - s.begin.y) / l, -((s.stop.x - s.begin.x) / l)⟩,
      (s.stop.y - s.begin.y) / l * s.begin.x +
        -((s.stop.x - s.begin.x) / l) * s.begin.y⟩ := by
  unfold LineSegment.plane LineSegment.normal
  rw [direction_eval s l hl h]
  rfl

/-- Evaluation of `find_circle_vs_origin_collision` at inputs whose
quadratic has real roots and whose contact passes the grazing filter. -/
theorem find_circle_eval (c : Vec2) (r : ℝ) (v : Vec2)
    (d sd t1 t2 t lc lv : ℝ) (rc : Vec2)
    (hdep : v.x * c.x + v.y * c.y < 0)
    (hd : 2 * (c.x * v.x + c.y * v.y) * (2 * (c.x * v.x + c.y * v.y)) -
      4 * (v.x * v.x + v.y * v.y) * (c.x * c.x + c.y * c.y - r * r) = d)
    (hd0 : 0 ≤ d) (hsd : Real.sqrt d = sd)
    (ht1 : (-(2 * (c.x * v.x + c.y * v.y)) + sd) / (2 * (v.x * v.x + v.y * v.y)) = t1)
    (ht2 : (-(2 * (c.x * v.x + c.y * v.y)) - sd) / (2 * (v.x * v.x + v.y * v.y)) = t2)
    (ht : min t1 t2 = t)
    (hrc : (⟨c.x + v.x * t, c.y + v.y * t⟩ : Vec2) = rc)
    (hlc : rc.x ^ 2 + rc.y ^ 2 = lc ^ 2) (hlcpos : 0 < lc)
    (hlv : v.x ^ 2 + v.y ^ 2 = lv ^ 2) (hlvpos : 0 < lv)
    (hfil : ¬(|rc.x / lc * (v.x / lv) + rc.y / lc * (v.y / lv)| <
      DOUBLE_COMPARE_EPS_STRICT)) :
    find_circle_vs_origin_collision c r v = some t := by
  unfold find_circle_vs_origin_collision
  rw [if_neg (show ¬(v.dot c ≥ 0) from not_le.mpr hdep)]
  rw [solve_quadratic_eval _ _ _ d sd hd hd0 hsd, ht1, ht2]
  dsimp only [ht, Vec2.hmul_def, Vec2.add_def]
  rw [ht, hrc, normalized_eval rc lc hlcpos hlc, normalized_eval v lv hlvpos hlv]
  dsimp only [unwrapOr0, Option.getD, Vec2.dot]
  rw [if_neg hfil]

/-- Evaluation of `find_circle_vs_origin_collision` at inputs whose
root is rejected by the grazing filter. -/
theorem find_circle_eval_grazing (c : Vec2) (r : ℝ) (v : Vec2)
    (d sd t1 t2 t lc lv : ℝ) (rc : Vec2)
    (hdep : v.x * c.x + v.y * c.y < 0)
    (hd : 2 * (c.x * v.x + c.y * v.y) * (2 * (c.x * v.x + c.y * v.y)) -
      4 * (v.x * v.x + v.y * v.y) * (c.x * c.x + c.y * c.y - r * r) = d)
    (hd0 : 0 ≤ d) (hsd : Real.sqrt d = sd)
    (ht1 : (-(2 * (c.x * v.x + c.y * v.y)) + sd) / (2 * (v.x * v.x + v.y * v.y)) = t1)
    (ht2 : (-(2 * (c.x * v.x + c.y * v.y)) - sd) / (2 * (v.x * v.x + v.y * v.y)) = t2)
    (ht : min t1 t2 = t)
    (hrc : (⟨c.x + v.x * t, c.y + v.y * t⟩ : Vec2) = rc)
    (hlc : rc.x ^ 2 + rc.y ^ 2 = lc ^ 2) (hlcpos : 0 < lc)
    (hlv : v.x ^ 2 + v.y ^ 2 = lv ^ 2) (hlvpos : 0 < lv)
    (hfil : |rc.x / lc * (v.x / lv) + rc.y / lc * (v.y / lv)| <
      DOUBLE_COMPARE_EPS_STRICT) :
    find_circle_vs_origin_collision c r v = none := by
  unfold find_circle_vs_origin_collision
  rw [if_neg (show ¬(v.dot c ≥ 0) from not_le.mpr hdep)]
  rw [solve_quadratic_eval _ _ _ d sd hd hd0 hsd, ht1, ht2]
  dsimp only [Vec2.hmul_def, Vec2.add_def]
  rw [ht, hrc, normalized_eval rc lc hlcpos hlc, normalized_eval v lv hlvpos hlv]
  dsimp only [unwrapOr0, Option.getD, Vec2.dot]
  rw [if_pos hfil]

theorem foldl_take_none (l : List (Option (ℝ × Vec2)))
    (h : ∀ x ∈ l, x = none) :
    l.foldl (fun res c => match c with
      | none => res
      | some col => takeCandidate res col) none = none := by
  induction l with
  | nil => rfl
  | cons a as ih =>
      rw [List.foldl_cons, h a (List.mem_cons_self a as)]
      exact ih (fun x hx => h x (List.mem_cons_of_mem _ hx))

theorem polygon_collision_none (center : Vec2) (radius : ℝ) (velocity : Vec2)
    (poly : Polygon)
    (hv : ∀ pr ∈ poly.points.enum,
      vertex_candidate center radius velocity poly pr.1 pr.2 = none)
    (he : ∀ i ∈ List.range poly.num_edges,
      edge_candidate center radius velocity (poly.edge i) = none) :
    find_particle_vs_polygon_collision center radius velocity poly = none := by
  unfold find_particle_vs_polygon_collision
  apply foldl_take_none
  intro x hx
  rw [List.mem_append] at hx
  rcases hx with hx | hx
  · obtain ⟨pr, hpr, rfl⟩ := List.mem_map.mp hx
    exact hv pr hpr
  · obtain ⟨i, hi, rfl⟩ := List.mem_map.mp hx
    exact he i hi

theorem is_point_outside_corner_false (poly : Polygon) (i : ℕ) (point : Vec2)
    (e1 e2 : LineSegment) (p1 p2 : Plane)
    (he1 : poly.edge ((i + poly.num_edges - 1) % poly.num_edges) = e1)
    (he2 : poly.edge i = e2)
    (hp1 : e1.plane = some p1) (hp2 : e2.plane = some p2)
    (hd1 : ¬(0 < p1.distanceTo point)) (hd2 : ¬(0 < p2.distanceTo point)) :
    poly.is_point_outside_corner i point = some false := by
  unfold Polygon.is_point_outside_corner
  rw [he1, he2]
  dsimp only []
  rw [hp1, hp2]
  dsimp only []
  by_cases hc : (e1.stop - e1.begin).cross (e2.stop - e2.begin) > 0
  · rw [if_pos hc]
    simp [decide_eq_false_iff_not, hd1, hd2]
  · rw [if_neg hc]
    simp [decide_eq_false_iff_not, hd1, hd2]

theorem vertex_candidate_none_of_inside (center : Vec2) (radius : ℝ)
    (velocity : Vec2) (poly : Polygon) (i : ℕ) (vtx : Vec2)
    (h : poly.is_point_outside_corner i center = some false) :
    vertex_candidate center radius velocity poly i vtx = none := by
  unfold vertex_candidate
  rw [if_neg (by simp [h])]

theorem edge_candidate_none_of_depth (center : Vec2) (radius : ℝ)
    (velocity : Vec2) (edge : LineSegment) (p : Plane)
    (hp : edge.plane = some p) (hd : p.distanceTo center ≤ 0) :
    edge_candidate center radius velocity edge = none := by
  unfold edge_candidate
  rw [hp]
  dsimp only []
  rw [if_pos (by linarith : -(p.distanceTo center) ≥ 0)]

/-! ## Concrete evaluations for a two-particle head-on scene -/

theorem fcvo_A : find_circle_vs_origin_collision ⟨-4, 0⟩ 2 ⟨1, 0⟩ = some 2 :=
  find_circle_eval ⟨-4, 0⟩ 2 ⟨1, 0⟩ 16 4 6 2 2 2 1 ⟨-2, 0⟩
    (by norm_num) (by norm_num) (by norm_num)
    (sqrt_of_sq 16 4 (by norm_num) (by norm_num))
    (by norm_num) (by norm_num)
    (by rw [min_def, if_neg (by norm_num : ¬((6:ℝ) ≤ 2))])
    (by norm_num) (by norm_num) (by norm_num) (by norm_num) (by norm_num)
    (by norm_num [DOUBLE_COMPARE_EPS_STRICT])

theorem fcvo_B : find_circle_vs_origin_collision ⟨4, 0⟩ 2 ⟨-1, 0⟩ = some 2 :=
  find_circle_eval ⟨4, 0⟩ 2 ⟨-1, 0⟩ 16 4 6 2 2 2 1 ⟨2, 0⟩
    (by norm_num) (by norm_num) (by norm_num)
    (sqrt_of_sq 16 4 (by norm_num) (by norm_num))
    (by norm_num) (by norm_num)
    (by rw [min_def, if_neg (by norm_num : ¬((6:ℝ) ≤ 2))])
    (by norm_num) (by norm_num) (by norm_num) (by norm_num) (by norm_num)
    (by norm_num [DOUBLE_COMPARE_EPS_STRICT])

theorem fpvp_01 :
    find_particle_vs_particle_collision ⟨0, 0⟩ 1 ⟨1, 0⟩ ⟨4, 0⟩ 1 ⟨0, 0⟩ = some 2 := by
  unfold find_particle_vs_particle_collision
  rw [show ((⟨0, 0⟩ : Vec2) - ⟨4, 0⟩) = ⟨-4, 0⟩ by norm_num,
      show ((⟨1, 0⟩ : Vec2) - ⟨0, 0⟩) = ⟨1, 0⟩ by norm_num,
      show ((1:ℝ) + 1) = 2 by norm_num]
  exact fcvo_A

theorem fpvp_10 :
    find_particle_vs_particle_collision ⟨4, 0⟩ 1 ⟨0, 0⟩ ⟨0, 0⟩ 1 ⟨1, 0⟩ = some 2 := by
  unfold find_particle_vs_particle_collision
  rw [show ((⟨4, 0⟩ : Vec2) - ⟨0, 0⟩) = ⟨4, 0⟩ by norm_num,
      show ((⟨0, 0⟩ : Vec2) - ⟨1, 0⟩) = ⟨-1, 0⟩ by norm_num,
      show ((1:ℝ) + 1) = 2 by norm_num]
  exact fcvo_B

theorem ncol_A :
    particles_collision_normal ⟨2, 0⟩ ⟨1, 0⟩ ⟨4, 0⟩ ⟨0, 0⟩ = some ⟨1, 0⟩ := by
  unfold particles_collision_normal
  rw [show ((⟨4, 0⟩ : Vec2) - ⟨2, 0⟩) = ⟨2, 0⟩ by norm_num,
      normalized_eval ⟨2, 0⟩ 2 (by norm_num) (by norm_num)]
  norm_num

theorem ncol_B :
    particles_collision_normal ⟨4, 0⟩ ⟨0, 0⟩ ⟨2, 0⟩ ⟨1, 0⟩ = some ⟨-1, 0⟩ := by
  unfold particles_collision_normal
  rw [show ((⟨2, 0⟩ : Vec2) - ⟨4, 0⟩) = ⟨-2, 0⟩ by norm_num,
      normalized_eval ⟨-2, 0⟩ 2 (by norm_num) (by norm_num)]
  norm_num

theorem fcww_nil (idx : ℕ) (particle : Particle) (pclass : ParticleClass)
    (ptime threshold : ℝ) :
    find_collisions_with_walls idx particle pclass [] ptime threshold = [] := rfl

theorem gen_init :
    find_collisions_with_particles 0 1 2
      [⟨⟨0, 0⟩, ⟨1, 0⟩, 1⟩, ⟨⟨4, 0⟩, ⟨0, 0⟩, 1⟩] (fun _ => ⟨"c", 1, 1⟩)
      (List.replicate 2 0) 10 = [⟨0, OtherObject.particle 1, ⟨1, 0⟩, 2⟩] := by
  unfold find_collisions_with_particles
  rw [show List.range' 1 (2 - 1) = [1] from rfl, List.filterMap_cons,
    List.filterMap_nil]
  norm_num [show ((List.replicate 2 (0:ℝ)).getD 0 0) = 0 from rfl,
    show ((List.replicate 2 (0:ℝ)).getD 1 0) = 0 from rfl,
    show (([⟨⟨0, 0⟩, ⟨1, 0⟩, 1⟩, ⟨⟨4, 0⟩, ⟨0, 0⟩, 1⟩] : List Particle).getD 0
      default) = ⟨⟨0, 0⟩, ⟨1, 0⟩, 1⟩ from rfl,
    show (([⟨⟨0, 0⟩, ⟨1, 0⟩, 1⟩, ⟨⟨4, 0⟩, ⟨0, 0⟩, 1⟩] : List Particle).getD 1
      default) = ⟨⟨4, 0⟩, ⟨0, 0⟩, 1⟩ from rfl,
    fpvp_01, ncol_A, TIME_SEC_EPS]

theorem gen0_s1 :
    find_collisions_with_particles 0 0 2
      [⟨⟨2, 0⟩, ⟨1, 0⟩, 1⟩, ⟨⟨4, 0⟩, ⟨0, 0⟩, 1⟩] (fun _ => ⟨"c", 1, 1⟩)
      [2, 2] 10 = [⟨0, OtherObject.particle 1, ⟨1, 0⟩, 2⟩] := by
  unfold find_collisions_with_particles
  rw [show List.range' 0 (2 - 0) = [0, 1] from rfl, List.filterMap_cons,
    List.filterMap_cons, List.filterMap_nil]
  norm_num [show (([2, 2] : List ℝ).getD 0 0) = 2 from rfl,
    show (([2, 2] : List ℝ).getD 1 0) = 2 from rfl,
    show (([⟨⟨2, 0⟩, ⟨1, 0⟩, 1⟩, ⟨⟨4, 0⟩, ⟨0, 0⟩, 1⟩] : List Particle).getD 0
      default) = ⟨⟨2, 0⟩, ⟨1, 0⟩, 1⟩ from rfl,
    show (([⟨⟨2, 0⟩, ⟨1, 0⟩, 1⟩, ⟨⟨4, 0⟩, ⟨0, 0⟩, 1⟩] : List Particle).getD 1
      default) = ⟨⟨4, 0⟩, ⟨0, 0⟩, 1⟩ from rfl,
    fpvp_01, ncol_A, TIME_SEC_EPS]

theorem gen1_s1 :
    find_collisions_with_particles 1 0 2
      [⟨⟨2, 0⟩, ⟨1, 0⟩, 1⟩, ⟨⟨4, 0⟩, ⟨0, 0⟩, 1⟩] (fun _ => ⟨"c", 1, 1⟩)
      [2, 2] 10 = [⟨1, OtherObject.particle 0, ⟨-1, 0⟩, 2⟩] := by
  unfold find_collisions_with_particles
  rw [show List.range' 0 (2 - 0) = [0, 1] from rfl, List.filterMap_cons,
    List.filterMap_cons, List.filterMap_nil]
  norm_num [show (([2, 2] : List ℝ).getD 0 0) = 2 from rfl,
    show (([2, 2] : List ℝ).getD 1 0) = 2 from rfl,
    show (([⟨⟨2, 0⟩, ⟨1, 0⟩, 1⟩, ⟨⟨4, 0⟩, ⟨0, 0⟩, 1⟩] : List Particle).getD 0
      default) = ⟨⟨2, 0⟩, ⟨1, 0⟩, 1⟩ from rfl,
    show (([⟨⟨2, 0⟩, ⟨1, 0⟩, 1⟩, ⟨⟨4, 0⟩, ⟨0, 0⟩, 1⟩] : List Particle).getD 1
      default) = ⟨⟨4, 0⟩, ⟨0, 0⟩, 1⟩ from rfl,
    fpvp_10, ncol_B, TIME_SEC_EPS]

theorem classes_getD_set (l : List Particle) (i : ℕ) (p : Particle)
    (h : p.class_id = (l.getD i default).class_id) (j : ℕ) :
    ((l.set i p).getD j default).class_id = (l.getD j default).class_id := by
  induction l generalizing i j with
  | nil => rfl
  | cons a as ih =>
      cases i with
      | zero =>
          cases j with
          | zero => exact h
          | succ m => rfl
      | succ n =>
          cases j with
          | zero => rfl
          | succ m => exact ih n h m

theorem resolveStep_classes (class_map : ClassId → ParticleClass)
    (walls : List Wall) (timestep : ℝ)
    (pvp : Particle → Particle → Vec2 → Vec2 × Vec2)
    (pvw : Particle → Wall → Vec2 → Vec2)
    (s : ResolverState) (collision : Collision) (rest : List Collision) :
    (∀ j, ((resolveStep class_map walls timestep pvp pvw s collision
        rest).particles.getD j default).class_id =
      (s.particles.getD j default).class_id) ∧
    (resolveStep class_map walls timestep pvp pvw s collision
      rest).particles.length = s.particles.length ∧
    (resolveStep class_map walls timestep pvp pvw s collision
      rest).particle_time.length = s.particle_time.length := by
  obtain ⟨cp, co, cn, ct⟩ := collision
  cases co with
  | particle p2 =>
      unfold resolveStep
      dsimp only []
      refine ⟨fun j => ?_, by simp, by simp⟩
      refine (classes_getD_set _ p2
        (resolve_particle_vs_particle (s.particles.getD cp default)
          (s.particles.getD p2 default) (s.particle_time.getD cp 0)
          (s.particle_time.getD p2 0) ct cn pvp).2 ?_ j).trans
        (classes_getD_set s.particles cp
          (resolve_particle_vs_particle (s.particles.getD cp default)
            (s.particles.getD p2 default) (s.particle_time.getD cp 0)
            (s.particle_time.getD p2 0) ct cn pvp).1 rfl j)
      exact (classes_getD_set s.particles cp
        (resolve_particle_vs_particle (s.particles.getD cp default)
          (s.particles.getD p2 default) (s.particle_time.getD cp 0)
          (s.particle_time.getD p2 0) ct cn pvp).1 rfl p2).symm
  | wall w =>
      unfold resolveStep
      dsimp only []
      refine ⟨fun j => ?_, by simp, by simp⟩
      exact classes_getD_set s.particles cp
        (resolve_particle_vs_wall (s.particles.getD cp default)
          (walls.getD w ⟨⟨[]⟩, 0⟩) (s.particle_time.getD cp 0) ct cn pvw)
        rfl j

theorem zipWith_advance_classes (timestep : ℝ) :
    ∀ (l1 : List Particle) (l2 : List ℝ), l2.length = l1.length → ∀ j,
      ((List.zipWith (fun (p : Particle) (t : ℝ) => { p with
          position := p.position + p.velocity * (timestep - t) }) l1 l2).getD
        j default).class_id = (l1.getD j default).class_id := by
  intro l1
  induction l1 with
  | nil => intro l2 h j; rfl
  | cons a as ih =>
      intro l2 h j
      cases l2 with
      | nil => exact absurd h (by simp)
      | cons t ts =>
          cases j with
          | zero => rfl
          | succ m => exact ih ts (by simpa using h) m

theorem resolveLoop_classes (class_map : ClassId → ParticleClass)
    (walls : List Wall) (timestep : ℝ)
    (pvp : Particle → Particle → Vec2 → Vec2 × Vec2)
    (pvw : Particle → Wall → Vec2 → Vec2) :
    ∀ (fuel : ℕ) (s : ResolverState) (final : List Particle),
      s.particle_time.length = s.particles.length →
      resolveLoop class_map walls timestep pvp pvw fuel s = some final →
      final.length = s.particles.length ∧
      ∀ j, (final.getD j default).class_id =
        (s.particles.getD j default).class_id := by
  intro fuel
  induction fuel with
  | zero =>
      intro s final hlen h
      exact absurd h (by simp [resolveLoop])
  | succ n ih =>
      intro s final hlen h
      rw [resolveLoop] at h
      cases hpop : popMinCollision s.queue with
      | none =>
          rw [hpop] at h
          obtain rfl := Option.some_inj.mp h
          constructor
          · show (List.zipWith _ _ _).length = _
            rw [List.length_zipWith, hlen, min_self]
          · intro j
            exact zipWith_advance_classes timestep s.particles s.particle_time
              hlen j
      | some pr =>
          rw [hpop] at h
          obtain ⟨col, rest⟩ := pr
          obtain ⟨hcls, hplen, htlen⟩ :=
            resolveStep_classes class_map walls timestep pvp pvw s col rest
          obtain ⟨hflen, hfcls⟩ := ih _ final (by rw [htlen, hplen, hlen]) h
          constructor
          · rw [hflen, hplen]
          · intro j
            rw [hfcls j, hcls j]

/-! ## A cycling scene for the scheduler: two particles whose collision
is resolved by a velocity resolver that returns the incoming velocities
unchanged, so the same pair collision is regenerated forever. -/

theorem cex_initQueue :
    initQueue [⟨⟨0, 0⟩, ⟨1, 0⟩, 1⟩, ⟨⟨4, 0⟩, ⟨0, 0⟩, 1⟩] (fun _ => ⟨"c", 1, 1⟩)
      [] 10 = [⟨0, OtherObject.particle 1, ⟨1, 0⟩, 2⟩] := by
  unfold initQueue
  rw [show ([⟨⟨0, 0⟩, ⟨1, 0⟩, 1⟩, ⟨⟨4, 0⟩, ⟨0, 0⟩, 1⟩] : List Particle).length = 2
    from rfl]
  rw [show List.range 2 = [0, 1] from rfl]
  simp only [List.foldl_cons, List.foldl_nil, fcww_nil]
  norm_num [gen_init,
    show find_collisions_with_particles 1 2 2
      [⟨⟨0, 0⟩, ⟨1, 0⟩, 1⟩, ⟨⟨4, 0⟩, ⟨0, 0⟩, 1⟩] (fun _ => ⟨"c", 1, 1⟩)
      (List.replicate 2 0) 10 = [] from rfl]

theorem cex_pop2 :
    popMinCollision [⟨0, OtherObject.particle 1, ⟨1, 0⟩, 2⟩,
      ⟨1, OtherObject.particle 0, ⟨-1, 0⟩, 2⟩] =
      some (⟨0, OtherObject.particle 1, ⟨1, 0⟩, 2⟩,
        [⟨1, OtherObject.particle 0, ⟨-1, 0⟩, 2⟩]) := by
  unfold popMinCollision
  rw [show popMinCollision [⟨1, OtherObject.particle 0, ⟨-1, 0⟩, 2⟩] =
    some (⟨1, OtherObject.particle 0, ⟨-1, 0⟩, 2⟩, []) from rfl]
  dsimp only []
  rw [if_pos (le_refl (2:ℝ))]

theorem cex_step_init :
    resolveStep (fun _ => ⟨"c", 1, 1⟩) [] 10
      (fun p q _ => (p.velocity, q.velocity)) (fun p _ _ => p.velocity)
      ⟨[⟨⟨0, 0⟩, ⟨1, 0⟩, 1⟩, ⟨⟨4, 0⟩, ⟨0, 0⟩, 1⟩], List.replicate 2 0,
        [⟨0, OtherObject.particle 1, ⟨1, 0⟩, 2⟩]⟩
      ⟨0, OtherObject.particle 1, ⟨1, 0⟩, 2⟩ [] =
      ⟨[⟨⟨2, 0⟩, ⟨1, 0⟩, 1⟩, ⟨⟨4, 0⟩, ⟨0, 0⟩, 1⟩], [2, 2],
        [⟨0, OtherObject.particle 1, ⟨1, 0⟩, 2⟩,
         ⟨1, OtherObject.particle 0, ⟨-1, 0⟩, 2⟩]⟩ := by
  unfold resolveStep
  dsimp only []
  norm_num [resolve_particle_vs_particle, List.set, regenerate,
    show (([⟨⟨0, 0⟩, ⟨1, 0⟩, 1⟩, ⟨⟨4, 0⟩, ⟨0, 0⟩, 1⟩] : List Particle).getD 0
      default) = ⟨⟨0, 0⟩, ⟨1, 0⟩, 1⟩ from rfl,
    show (([⟨⟨0, 0⟩, ⟨1, 0⟩, 1⟩, ⟨⟨4, 0⟩, ⟨0, 0⟩, 1⟩] : List Particle).getD 1
      default) = ⟨⟨4, 0⟩, ⟨0, 0⟩, 1⟩ from rfl,
    show ((List.replicate 2 (0:ℝ)).getD 0 0) = 0 from rfl,
    show ((List.replicate 2 (0:ℝ)).getD 1 0) = 0 from rfl,
    gen0_s1, gen1_s1, fcww_nil,
    show (([2, 2] : List ℝ).getD 0 0) = 2 from rfl,
    show (([2, 2] : List ℝ).getD 1 0) = 2 from rfl]

theorem cex_step_s1 :
    resolveStep (fun _ => ⟨"c", 1, 1⟩) [] 10
      (fun p q _ => (p.velocity, q.velocity)) (fun p _ _ => p.velocity)
      ⟨[⟨⟨2, 0⟩, ⟨1, 0⟩, 1⟩, ⟨⟨4, 0⟩, ⟨0, 0⟩, 1⟩], [2, 2],
        [⟨0, OtherObject.particle 1, ⟨1, 0⟩, 2⟩,
         ⟨1, OtherObject.particle 0, ⟨-1, 0⟩, 2⟩]⟩
      ⟨0, OtherObject.particle 1, ⟨1, 0⟩, 2⟩
      [⟨1, OtherObject.particle 0, ⟨-1, 0⟩, 2⟩] =
      ⟨[⟨⟨2, 0⟩, ⟨1, 0⟩, 1⟩, ⟨⟨4, 0⟩, ⟨0, 0⟩, 1⟩], [2, 2],
        [⟨0, OtherObject.particle 1, ⟨1, 0⟩, 2⟩,
         ⟨1, OtherObject.particle 0, ⟨-1, 0⟩, 2⟩]⟩ := by
  unfold resolveStep
  dsimp only []
  norm_num [resolve_particle_vs_particle, List.set, regenerate, List.filter,
    Collision.involves_particle,
    show (([⟨⟨2, 0⟩, ⟨1, 0⟩, 1⟩, ⟨⟨4, 0⟩, ⟨0, 0⟩, 1⟩] : List Particle).getD 0
      default) = ⟨⟨2, 0⟩, ⟨1, 0⟩, 1⟩ from rfl,
    show (([⟨⟨2, 0⟩, ⟨1, 0⟩, 1⟩, ⟨⟨4, 0⟩, ⟨0, 0⟩, 1⟩] : List Particle).getD 1
      default) = ⟨⟨4, 0⟩, ⟨0, 0⟩, 1⟩ from rfl,
    gen0_s1, gen1_s1, fcww_nil,
    show (([2, 2] : List ℝ).getD 0 0) = 2 from rfl,
    show (([2, 2] : List ℝ).getD 1 0) = 2 from rfl]

theorem cex_loop_s1 :
    ∀ n : ℕ, resolveLoop (fun _ => ⟨"c", 1, 1⟩) [] 10
      (fun p q _ => (p.velocity, q.velocity)) (fun p _ _ => p.velocity) n
      ⟨[⟨⟨2, 0⟩, ⟨1, 0⟩, 1⟩, ⟨⟨4, 0⟩, ⟨0, 0⟩, 1⟩], [2, 2],
        [⟨0, OtherObject.particle 1, ⟨1, 0⟩, 2⟩,
         ⟨1, OtherObject.particle 0, ⟨-1, 0⟩, 2⟩]⟩ = none := by
  intro n
  induction n with
  | zero => rfl
  | succ m ih =>
      rw [resolveLoop, cex_pop2]
      dsimp only []
      rw [cex_step_s1]
      exact ih

/-! ## Claim theorems -/

/-- C1: the provided wall_class.rs stores a name and a coefficient of
restitution (not a temperature and a heat conductivity), and the
integrator's particle-vs-wall resolver forwards exactly that restitution
coefficient to the wall resolution routine. -/
theorem wallClass_stores_restitution :
    WallClass.new "wall" (9 / 10) = ⟨"wall", 9 / 10⟩ ∧
    integrator_wall_resolver_scalar (fun _ => WallClass.new "wall" (9 / 10))
      ⟨⟨[]⟩, 0⟩ = 9 / 10 :=
  ⟨rfl, rfl⟩

/-- C2: the impulse-based particle-particle resolution conserves
momentum: `m1·v1' + m2·v2' = m1·v1 + m2·v2` for positive masses, any
velocities, any unit contact normal and any restitution coefficient. -/
theorem momentum_conserved (m1 m2 : ℝ) (v1 v2 n : Vec2) (e : ℝ)
    (hm1 : 0 < m1) (hm2 : 0 < m2) (hn : n.length = 1) :
    (particles_collision_separation_velocity v1 m1 v2 m2 n e).1 * m1 +
      (particles_collision_separation_velocity v1 m1 v2 m2 n e).2 * m2 =
      v1 * m1 + v2 * m2 := by
  obtain ⟨x1, y1⟩ := v1
  obtain ⟨x2, y2⟩ := v2
  obtain ⟨nx, ny⟩ := n
  have h1 : m1 ≠ 0 := ne_of_gt hm1
  have h2 : m2 ≠ 0 := ne_of_gt hm2
  simp only [particles_collision_separation_velocity, collision_impulse,
    apply_impulse, Vec2.hmul_def, Vec2.hdiv_def, Vec2.add_def, Vec2.sub_def,
    Vec2.neg_def, Vec2.dot, Vec2.mk.injEq]
  constructor <;> (field_simp; ring)

/-- C2 witness: concrete momentum conservation instance. -/
theorem momentum_conserved_witness :
    (0:ℝ) < 1 ∧ (0:ℝ) < 2 ∧ Vec2.length ⟨1, 0⟩ = 1 ∧
    (particles_collision_separation_velocity ⟨1, 0⟩ 1 ⟨0, 0⟩ 2 ⟨1, 0⟩ 1).1 * (1:ℝ) +
      (particles_collision_separation_velocity ⟨1, 0⟩ 1 ⟨0, 0⟩ 2 ⟨1, 0⟩ 1).2 * (2:ℝ) =
      (⟨1, 0⟩ : Vec2) * (1:ℝ) + (⟨0, 0⟩ : Vec2) * (2:ℝ) := by
  have hn : Vec2.length ⟨1, 0⟩ = 1 := by
    simp [Vec2.length]
  exact ⟨by norm_num, by norm_num, hn,
    momentum_conserved 1 2 ⟨1, 0⟩ ⟨0, 0⟩ ⟨1, 0⟩ 1 (by norm_num) (by norm_num) hn⟩

/-- C8: `Polygon::is_point_outside_corner` returns `true` exactly when,
for a convex corner (positive cross product of the two adjacent edge
directions) the point is strictly in front of at least one of the two
adjacent edges' planes, and for a concave corner strictly in front of
both. -/
theorem is_point_outside_corner_spec (poly : Polygon) (i : ℕ) (p : Vec2)
    (d1 d2 : Vec2) (p1 p2 : Plane)
    (hd1 : (poly.edge ((i + poly.num_edges - 1) % poly.num_edges)).direction = some d1)
    (hd2 : (poly.edge i).direction = some d2)
    (hp1 : (poly.edge ((i + poly.num_edges - 1) % poly.num_edges)).plane = some p1)
    (hp2 : (poly.edge i).plane = some p2) :
    poly.is_point_outside_corner i p = some true ↔
      (if 0 < d1.cross d2
       then 0 < p1.distanceTo p ∨ 0 < p2.distanceTo p
       else 0 < p1.distanceTo p ∧ 0 < p2.distanceTo p) := by
  set e1 := poly.edge ((i + poly.num_edges - 1) % poly.num_edges) with he1
  set e2 := poly.edge i with he2
  unfold LineSegment.direction at hd1 hd2
  obtain ⟨hl1, hd1'⟩ := normalized_eq_some hd1
  obtain ⟨hl2, hd2'⟩ := normalized_eq_some hd2
  have hcross : (e1.stop - e1.begin).cross (e2.stop - e2.begin) > 0 ↔
      0 < d1.cross d2 := by
    rw [hd1', hd2', cross_sdiv, lt_div_iff₀ (mul_pos hl1 hl2), zero_mul]
  simp only [Polygon.is_point_outside_corner]
  rw [← he1, ← he2, hp1, hp2]
  simp only [Option.some.injEq]
  by_cases hcv : 0 < d1.cross d2
  · rw [if_pos (hcross.mpr hcv), if_pos hcv, decide_eq_true_eq]
  · rw [if_neg (fun hh => hcv (hcross.mp hh)), if_neg hcv, decide_eq_true_eq]

/-- C8 witness: the convex corner at vertex 1 of an L-shaped polygon,
with a probe point just beyond it. -/
theorem is_point_outside_corner_spec_witness :
    (Polygon.edge ⟨[⟨0, 0⟩, ⟨3, 0⟩, ⟨3, 1⟩, ⟨2, 1⟩, ⟨2, 2⟩, ⟨2, 0⟩]⟩
        ((1 + Polygon.num_edges ⟨[⟨0, 0⟩, ⟨3, 0⟩, ⟨3, 1⟩, ⟨2, 1⟩, ⟨2, 2⟩, ⟨2, 0⟩]⟩ - 1) %
          Polygon.num_edges ⟨[⟨0, 0⟩, ⟨3, 0⟩, ⟨3, 1⟩, ⟨2, 1⟩, ⟨2, 2⟩, ⟨2, 0⟩]⟩)).direction =
      some ⟨1, 0⟩ ∧
    (Polygon.edge ⟨[⟨0, 0⟩, ⟨3, 0⟩, ⟨3, 1⟩, ⟨2, 1⟩, ⟨2, 2⟩, ⟨2, 0⟩]⟩ 1).direction =
      some ⟨0, 1⟩ ∧
    (Polygon.is_point_outside_corner ⟨[⟨0, 0⟩, ⟨3, 0⟩, ⟨3, 1⟩, ⟨2, 1⟩, ⟨2, 2⟩, ⟨2, 0⟩]⟩
        1 ⟨31 / 10, 0⟩ = some true ↔
      (if 0 < Vec2.cross ⟨1, 0⟩ ⟨0, 1⟩
       then 0 < Plane.distanceTo ⟨⟨0, -1⟩, 0⟩ ⟨31 / 10, 0⟩ ∨
            0 < Plane.distanceTo ⟨⟨1, 0⟩, 3⟩ ⟨31 / 10, 0⟩
       else 0 < Plane.distanceTo ⟨⟨0, -1⟩, 0⟩ ⟨31 / 10, 0⟩ ∧
            0 < Plane.distanceTo ⟨⟨1, 0⟩, 3⟩ ⟨31 / 10, 0⟩)) := by
  have hed1 : Polygon.edge ⟨[⟨0, 0⟩, ⟨3, 0⟩, ⟨3, 1⟩, ⟨2, 1⟩, ⟨2, 2⟩, ⟨2, 0⟩]⟩
      ((1 + Polygon.num_edges ⟨[⟨0, 0⟩, ⟨3, 0⟩, ⟨3, 1⟩, ⟨2, 1⟩, ⟨2, 2⟩, ⟨2, 0⟩]⟩ - 1) %
        Polygon.num_edges ⟨[⟨0, 0⟩, ⟨3, 0⟩, ⟨3, 1⟩, ⟨2, 1⟩, ⟨2, 2⟩, ⟨2, 0⟩]⟩) =
      ⟨⟨0, 0⟩, ⟨3, 0⟩⟩ := rfl
  have hed2 : Polygon.edge ⟨[⟨0, 0⟩, ⟨3, 0⟩, ⟨3, 1⟩, ⟨2, 1⟩, ⟨2, 2⟩, ⟨2, 0⟩]⟩ 1 =
      ⟨⟨3, 0⟩, ⟨3, 1⟩⟩ := rfl
  have hd1 : (LineSegment.direction ⟨⟨0, 0⟩, ⟨3, 0⟩⟩) = some ⟨1, 0⟩ := by
    have := direction_eval ⟨⟨0, 0⟩, ⟨3, 0⟩⟩ 3 (by norm_num) (by norm_num)
    rw [this]
    norm_num
  have hd2 : (LineSegment.direction ⟨⟨3, 0⟩, ⟨3, 1⟩⟩) = some ⟨0, 1⟩ := by
    have := direction_eval ⟨⟨3, 0⟩, ⟨3, 1⟩⟩ 1 (by norm_num) (by norm_num)
    rw [this]
    norm_num
  have hp1 : (LineSegment.plane ⟨⟨0, 0⟩, ⟨3, 0⟩⟩) = some ⟨⟨0, -1⟩, 0⟩ := by
    have := plane_eval ⟨⟨0, 0⟩, ⟨3, 0⟩⟩ 3 (by norm_num) (by norm_num)
    rw [this]
    norm_num
  have hp2 : (LineSegment.plane ⟨⟨3, 0⟩, ⟨3, 1⟩⟩) = some ⟨⟨1, 0⟩, 3⟩ := by
    have := plane_eval ⟨⟨3, 0⟩, ⟨3, 1⟩⟩ 1 (by norm_num) (by norm_num)
    rw [this]
    norm_num
  refine ⟨by rw [hed1]; exact hd1, by rw [hed2]; exact hd2, ?_⟩
  exact is_point_outside_corner_spec _ 1 _ ⟨1, 0⟩ ⟨0, 1⟩ ⟨⟨0, -1⟩, 0⟩ ⟨⟨1, 0⟩, 3⟩
    (by rw [hed1]; exact hd1) (by rw [hed2]; exact hd2)
    (by rw [hed1]; exact hp1) (by rw [hed2]; exact hp2)

/-- C3: `find_circle_vs_origin_collision` coincides with the reference
definition written from the spec (departing means no collision, the
quadratic's smaller root otherwise, a graze-filter on the contact
point), and in particular the exact tangent hit with center `(1, -5)`,
radius `1` and velocity `(0, 2)` yields no collision. -/
theorem circle_vs_origin_matches_reference :
    (∀ (c : Vec2) (r : ℝ) (v : Vec2),
      find_circle_vs_origin_collision c r v = circle_vs_origin_reference c r v) ∧
    find_circle_vs_origin_collision ⟨1, -5⟩ 1 ⟨0, 2⟩ = none := by
  constructor
  · intro c r v
    unfold find_circle_vs_origin_collision circle_vs_origin_reference
    by_cases h0 : v.dot c ≥ 0
    · rw [if_pos h0, if_pos h0]
    · rw [if_neg h0, if_neg h0]
      have hvne : v.x ≠ 0 ∨ v.y ≠ 0 := by
        by_contra hvv
        push_neg at hvv
        exact h0 (ge_of_eq (by simp [Vec2.dot, hvv.1, hvv.2]))
      have hA : 0 < v.x * v.x + v.y * v.y := by
        rcases hvne with hx | hy
        · nlinarith [mul_self_nonneg v.y, mul_self_pos.mpr hx]
        · nlinarith [mul_self_nonneg v.x, mul_self_pos.mpr hy]
      dsimp only [Vec2.dot]
      set A := v.x * v.x + v.y * v.y with hA'
      set B := 2 * (c.x * v.x + c.y * v.y) with hB'
      set K := c.x * c.x + c.y * c.y - r * r with hK'
      by_cases hd : B * B - 4 * A * K < 0
      · rw [solve_quadratic_none _ _ _ hd, if_pos hd]
      · rw [solve_quadratic_eval A B K (B * B - 4 * A * K)
          (Real.sqrt (B * B - 4 * A * K)) rfl (not_lt.mp hd) rfl, if_neg hd]
        have hs0 := Real.sqrt_nonneg (B * B - 4 * A * K)
        have h2A : (0:ℝ) < 2 * A := by linarith
        have hle : (-B - Real.sqrt (B * B - 4 * A * K)) / (2 * A) ≤
            (-B + Real.sqrt (B * B - 4 * A * K)) / (2 * A) := by
          rw [div_le_div_iff_of_pos_right h2A]
          linarith
        dsimp only []
        rw [min_eq_right hle]
  · exact find_circle_eval_grazing ⟨1, -5⟩ 1 ⟨0, 2⟩ 0 0 (5/2) (5/2) (5/2) 1 2
      ⟨1, 0⟩ (by norm_num) (by norm_num) le_rfl Real.sqrt_zero
      (by norm_num) (by norm_num) (by norm_num) (by norm_num)
      (by norm_num) (by norm_num) (by norm_num) (by norm_num)
      (by norm_num [DOUBLE_COMPARE_EPS_STRICT])

/-- C4 (amended): an edge of `find_particle_vs_polygon_collision`
contributes a candidate exactly when the particle center is strictly in
front of the edge's plane (equivalently, the disc's penetration depth
past the edge is less than the radius); the candidate's time then comes
from point-vs-segment against the edge offset outward by the radius and
its normal is the edge's outward plane normal. -/
theorem edge_candidate_characterization (center : Vec2) (radius : ℝ)
    (velocity : Vec2) (edge : LineSegment) (p : Plane) (off : LineSegment)
    (hp : edge.plane = some p) (hoff : edge.offseted radius = some off) :
    edge_candidate center radius velocity edge =
      if 0 < p.distanceTo center then
        (find_point_vs_segment_collision center velocity off).map
          (fun t => (t, p.normal))
      else none := by
  unfold edge_candidate
  rw [hp]
  dsimp only []
  by_cases hc : 0 < p.distanceTo center
  · rw [if_neg (by linarith : ¬(-(p.distanceTo center) ≥ 0)), hoff, if_pos hc]
    dsimp only []
    cases hfs : find_point_vs_segment_collision center velocity off
    · rfl
    · rfl
  · rw [if_pos (by linarith : -(p.distanceTo center) ≥ 0), if_neg hc]

/-- C4 witness: the top edge of a rectangle hit head-on from above
produces the point-vs-segment candidate with the edge's outward
normal. -/
theorem edge_candidate_characterization_witness :
    (⟨⟨4, 3⟩, ⟨1, 3⟩⟩ : LineSegment).plane = some ⟨⟨0, 1⟩, 3⟩ ∧
    (⟨⟨4, 3⟩, ⟨1, 3⟩⟩ : LineSegment).offseted 1 = some ⟨⟨4, 4⟩, ⟨1, 4⟩⟩ ∧
    edge_candidate ⟨3, 6⟩ 1 ⟨0, -2⟩ ⟨⟨4, 3⟩, ⟨1, 3⟩⟩ =
      (if 0 < Plane.distanceTo ⟨⟨0, 1⟩, 3⟩ ⟨3, 6⟩ then
        (find_point_vs_segment_collision ⟨3, 6⟩ ⟨0, -2⟩ ⟨⟨4, 4⟩, ⟨1, 4⟩⟩).map
          (fun t => (t, Plane.normal ⟨⟨0, 1⟩, 3⟩))
      else none) := by
  have hp : (⟨⟨4, 3⟩, ⟨1, 3⟩⟩ : LineSegment).plane = some ⟨⟨0, 1⟩, 3⟩ := by
    rw [plane_eval ⟨⟨4, 3⟩, ⟨1, 3⟩⟩ 3 (by norm_num) (by norm_num)]
    norm_num
  have hoff : (⟨⟨4, 3⟩, ⟨1, 3⟩⟩ : LineSegment).offseted 1 = some ⟨⟨4, 4⟩, ⟨1, 4⟩⟩ := by
    unfold LineSegment.offseted LineSegment.normal
    rw [direction_eval ⟨⟨4, 3⟩, ⟨1, 3⟩⟩ 3 (by norm_num) (by norm_num)]
    dsimp only [Option.map, Vec2.rotated_90_cw]
    norm_num [Vec2.add_def, Vec2.hmul_def]
  exact ⟨hp, hoff, edge_candidate_characterization ⟨3, 6⟩ 1 ⟨0, -2⟩ _ _ _ hp hoff⟩

/-- C4 counterexample: for the rectangle `(1,1)-(4,3)`, center
`(3, 2.99)`, radius `0.5`, velocity `(0,-2)`: the top edge's signed
center penetration depth `0.01` is less than the radius `0.5`, and the
point-vs-segment test against the offset edge produces the time
`-0.255`, yet the source contributes no candidate for that edge (the
gate compares the depth with zero, not with the radius) and the whole
collision query returns none — exactly what the crate's own regression
test asserts at this input. -/
theorem edge_gate_counterexample :
    ((⟨[⟨1, 1⟩, ⟨4, 1⟩, ⟨4, 3⟩, ⟨1, 3⟩]⟩ : Polygon).edge 2).plane =
      some ⟨⟨0, 1⟩, 3⟩ ∧
    -(Plane.distanceTo ⟨⟨0, 1⟩, 3⟩ ⟨3, 299 / 100⟩) < (1 / 2 : ℝ) ∧
    ((⟨[⟨1, 1⟩, ⟨4, 1⟩, ⟨4, 3⟩, ⟨1, 3⟩]⟩ : Polygon).edge 2).offseted (1 / 2) =
      some ⟨⟨4, 7 / 2⟩, ⟨1, 7 / 2⟩⟩ ∧
    find_point_vs_segment_collision ⟨3, 299 / 100⟩ ⟨0, -2⟩ ⟨⟨4, 7 / 2⟩, ⟨1, 7 / 2⟩⟩ =
      some (-(51 / 200)) ∧
    edge_candidate ⟨3, 299 / 100⟩ (1 / 2) ⟨0, -2⟩
      ((⟨[⟨1, 1⟩, ⟨4, 1⟩, ⟨4, 3⟩, ⟨1, 3⟩]⟩ : Polygon).edge 2) = none ∧
    find_particle_vs_polygon_collision ⟨3, 299 / 100⟩ (1 / 2) ⟨0, -2⟩
      ⟨[⟨1, 1⟩, ⟨4, 1⟩, ⟨4, 3⟩, ⟨1, 3⟩]⟩ = none := by
  have hpl0 : (⟨⟨1, 1⟩, ⟨4, 1⟩⟩ : LineSegment).plane = some ⟨⟨0, -1⟩, -1⟩ := by
    rw [plane_eval ⟨⟨1, 1⟩, ⟨4, 1⟩⟩ 3 (by norm_num) (by norm_num)]
    norm_num
  have hpl1 : (⟨⟨4, 1⟩, ⟨4, 3⟩⟩ : LineSegment).plane = some ⟨⟨1, 0⟩, 4⟩ := by
    rw [plane_eval ⟨⟨4, 1⟩, ⟨4, 3⟩⟩ 2 (by norm_num) (by norm_num)]
    norm_num
  have hpl2 : (⟨⟨4, 3⟩, ⟨1, 3⟩⟩ : LineSegment).plane = some ⟨⟨0, 1⟩, 3⟩ := by
    rw [plane_eval ⟨⟨4, 3⟩, ⟨1, 3⟩⟩ 3 (by norm_num) (by norm_num)]
    norm_num
  have hpl3 : (⟨⟨1, 3⟩, ⟨1, 1⟩⟩ : LineSegment).plane = some ⟨⟨-1, 0⟩, -1⟩ := by
    rw [plane_eval ⟨⟨1, 3⟩, ⟨1, 1⟩⟩ 2 (by norm_num) (by norm_num)]
    norm_num
  have hoc0 : (⟨[⟨1, 1⟩, ⟨4, 1⟩, ⟨4, 3⟩, ⟨1, 3⟩]⟩ : Polygon).is_point_outside_corner
      0 ⟨3, 299 / 100⟩ = some false :=
    is_point_outside_corner_false _ 0 _ ⟨⟨1, 3⟩, ⟨1, 1⟩⟩ ⟨⟨1, 1⟩, ⟨4, 1⟩⟩
      ⟨⟨-1, 0⟩, -1⟩ ⟨⟨0, -1⟩, -1⟩ rfl rfl hpl3 hpl0
      (by norm_num [Plane.distanceTo, Vec2.dot])
      (by norm_num [Plane.distanceTo, Vec2.dot])
  have hoc1 : (⟨[⟨1, 1⟩, ⟨4, 1⟩, ⟨4, 3⟩, ⟨1, 3⟩]⟩ : Polygon).is_point_outside_corner
      1 ⟨3, 299 / 100⟩ = some false :=
    is_point_outside_corner_false _ 1 _ ⟨⟨1, 1⟩, ⟨4, 1⟩⟩ ⟨⟨4, 1⟩, ⟨4, 3⟩⟩
      ⟨⟨0, -1⟩, -1⟩ ⟨⟨1, 0⟩, 4⟩ rfl rfl hpl0 hpl1
      (by norm_num [Plane.distanceTo, Vec2.dot])
      (by norm_num [Plane.distanceTo, Vec2.dot])
  have hoc2 : (⟨[⟨1, 1⟩, ⟨4, 1⟩, ⟨4, 3⟩, ⟨1, 3⟩]⟩ : Polygon).is_point_outside_corner
      2 ⟨3, 299 / 100⟩ = some false :=
    is_point_outside_corner_false _ 2 _ ⟨⟨4, 1⟩, ⟨4, 3⟩⟩ ⟨⟨4, 3⟩, ⟨1, 3⟩⟩
      ⟨⟨1, 0⟩, 4⟩ ⟨⟨0, 1⟩, 3⟩ rfl rfl hpl1 hpl2
      (by norm_num [Plane.distanceTo, Vec2.dot])
      (by norm_num [Plane.distanceTo, Vec2.dot])
  have hoc3 : (⟨[⟨1, 1⟩, ⟨4, 1⟩, ⟨4, 3⟩, ⟨1, 3⟩]⟩ : Polygon).is_point_outside_corner
      3 ⟨3, 299 / 100⟩ = some false :=
    is_point_outside_corner_false _ 3 _ ⟨⟨4, 3⟩, ⟨1, 3⟩⟩ ⟨⟨1, 3⟩, ⟨1, 1⟩⟩
      ⟨⟨0, 1⟩, 3⟩ ⟨⟨-1, 0⟩, -1⟩ rfl rfl hpl2 hpl3
      (by norm_num [Plane.distanceTo, Vec2.dot])
      (by norm_num [Plane.distanceTo, Vec2.dot])
  have hseg : find_point_vs_segment_collision ⟨3, 299 / 100⟩ ⟨0, -2⟩
      ⟨⟨4, 7 / 2⟩, ⟨1, 7 / 2⟩⟩ = some (-(51 / 200)) := by
    unfold find_point_vs_segment_collision
    rw [plane_eval ⟨⟨4, 7 / 2⟩, ⟨1, 7 / 2⟩⟩ 3 (by norm_num) (by norm_num)]
    dsimp only []
    unfold find_point_vs_plane_collision
    norm_num [Vec2.dot, Vec2.sub_def, Vec2.add_def, Vec2.hmul_def]
  have hoff2 : ((⟨[⟨1, 1⟩, ⟨4, 1⟩, ⟨4, 3⟩, ⟨1, 3⟩]⟩ : Polygon).edge 2).offseted
      (1 / 2) = some ⟨⟨4, 7 / 2⟩, ⟨1, 7 / 2⟩⟩ := by
    show (⟨⟨4, 3⟩, ⟨1, 3⟩⟩ : LineSegment).offseted (1 / 2) = _
    unfold LineSegment.offseted LineSegment.normal
    rw [direction_eval ⟨⟨4, 3⟩, ⟨1, 3⟩⟩ 3 (by norm_num) (by norm_num)]
    dsimp only [Option.map, Vec2.rotated_90_cw]
    norm_num [Vec2.add_def, Vec2.hmul_def]
  refine ⟨hpl2, by norm_num [Plane.distanceTo, Vec2.dot], hoff2, hseg, ?_, ?_⟩
  · exact edge_candidate_none_of_depth _ _ _ _ _ hpl2
      (by norm_num [Plane.distanceTo, Vec2.dot])
  · apply polygon_collision_none
    · intro pr hpr
      fin_cases hpr
      · exact vertex_candidate_none_of_inside _ _ _ _ _ _ hoc0
      · exact vertex_candidate_none_of_inside _ _ _ _ _ _ hoc1
      · exact vertex_candidate_none_of_inside _ _ _ _ _ _ hoc2
      · exact vertex_candidate_none_of_inside _ _ _ _ _ _ hoc3
    · intro i hi
      fin_cases hi
      · exact edge_candidate_none_of_depth _ _ _ _ _ hpl0
          (by norm_num [Plane.distanceTo, Vec2.dot])
      · exact edge_candidate_none_of_depth _ _ _ _ _ hpl1
          (by norm_num [Plane.distanceTo, Vec2.dot])
      · exact edge_candidate_none_of_depth _ _ _ _ _ hpl2
          (by norm_num [Plane.distanceTo, Vec2.dot])
      · exact edge_candidate_none_of_depth _ _ _ _ _ hpl3
          (by norm_num [Plane.distanceTo, Vec2.dot])

/-- C5: every candidate the two collision finders produce (the only
ways events enter the scheduler's queue, at initialization and after
each resolution) has a time at least the maximum of its participants'
simulated times minus `TIME_SEC_EPS` and strictly below the time
budget. -/
theorem inserted_candidates_in_window :
    (∀ (main lo hi : ℕ) (particles : List Particle)
       (class_map : ClassId → ParticleClass) (times : List ℝ) (threshold : ℝ)
       (col : Collision),
       col ∈ find_collisions_with_particles main lo hi particles class_map
         times threshold →
       ∃ j, col.other = OtherObject.particle j ∧ col.particle = main ∧
         max (times.getD main 0) (times.getD j 0) - TIME_SEC_EPS ≤ col.time ∧
         col.time < threshold) ∧
    (∀ (idx : ℕ) (particle : Particle) (pclass : ParticleClass)
       (walls : List Wall) (ptime threshold : ℝ) (col : Collision),
       col ∈ find_collisions_with_walls idx particle pclass walls ptime
         threshold →
       ptime - TIME_SEC_EPS ≤ col.time ∧ col.time < threshold) := by
  constructor
  · intro main lo hi particles class_map times threshold col hmem
    obtain ⟨i, hil, hf⟩ := List.mem_filterMap.mp hmem
    by_cases him : i = main
    · rw [if_pos him] at hf
      exact absurd hf (by simp)
    · rw [if_neg him] at hf
      dsimp only [] at hf
      split at hf
      · exact absurd hf (by simp)
      · rename_i ct hct
        split at hf
        · rename_i hw
          split at hf
          · rename_i n hn
            obtain rfl := Option.some_inj.mp hf
            refine ⟨i, rfl, rfl, ?_, ?_⟩
            · have h1 := hw.1
              have h2 := hw.2.1
              have hm : max (times.getD main 0) (times.getD i 0) ≤
                  ct + TIME_SEC_EPS := max_le (by linarith) (by linarith)
              dsimp only []
              linarith
            · dsimp only []
              exact hw.2.2
          · exact absurd hf (by simp)
        · exact absurd hf (by simp)
  · intro idx particle pclass walls ptime threshold col hmem
    obtain ⟨w, hwl, hf⟩ := List.mem_filterMap.mp hmem
    dsimp only [] at hf
    split at hf
    · rename_i ct cn hctn
      split at hf
      · rename_i hw
        obtain rfl := Option.some_inj.mp hf
        constructor
        · dsimp only []
          linarith [hw.1]
        · dsimp only []
          exact hw.2
      · exact absurd hf (by simp)
    · exact absurd hf (by simp)

/-- C5 witness: a concrete candidate produced by the particle finder,
inside the insertion window. -/
theorem inserted_candidates_in_window_witness :
    (⟨0, OtherObject.particle 1, ⟨1, 0⟩, 2⟩ : Collision) ∈
      find_collisions_with_particles 0 1 2
        [⟨⟨0, 0⟩, ⟨1, 0⟩, 1⟩, ⟨⟨4, 0⟩, ⟨0, 0⟩, 1⟩] (fun _ => ⟨"c", 1, 1⟩)
        (List.replicate 2 0) 10 ∧
    ∃ j, (⟨0, OtherObject.particle 1, ⟨1, 0⟩, 2⟩ : Collision).other =
        OtherObject.particle j ∧
      (⟨0, OtherObject.particle 1, ⟨1, 0⟩, 2⟩ : Collision).particle = 0 ∧
      max ((List.replicate 2 (0:ℝ)).getD 0 0) ((List.replicate 2 (0:ℝ)).getD j 0) -
          TIME_SEC_EPS ≤ (⟨0, OtherObject.particle 1, ⟨1, 0⟩, 2⟩ : Collision).time ∧
      (⟨0, OtherObject.particle 1, ⟨1, 0⟩, 2⟩ : Collision).time < 10 := by
  have hmem : (⟨0, OtherObject.particle 1, ⟨1, 0⟩, 2⟩ : Collision) ∈
      find_collisions_with_particles 0 1 2
        [⟨⟨0, 0⟩, ⟨1, 0⟩, 1⟩, ⟨⟨4, 0⟩, ⟨0, 0⟩, 1⟩] (fun _ => ⟨"c", 1, 1⟩)
        (List.replicate 2 0) 10 := by
    rw [gen_init]
    exact List.mem_singleton_self _
  exact ⟨hmem, inserted_candidates_in_window.1 0 1 2 _ _ _ 10 _ hmem⟩

/-- C6: for a moving particle (normalize-or-none succeeds), when the
energy-matching quadratic has real roots,
`particles_vs_wall_collision_separation_velocity` applies the root of
smaller absolute magnitude to the elastic bounce and the resulting
speed equals the energy-adjusted target; when the quadratic has no real
root the function fails fatally (modelled `none`) instead of returning
a velocity. -/
theorem wall_resolver_energy_matching (velocity1 : Vec2) (mass1 : ℝ)
    (collision_normal : Vec2)
    (wall_temperature wall_heat_conductivity sampled_temperature : ℝ)
    (direction : Vec2) (hdir : velocity1.normalized = some direction) :
    (wallQuadB velocity1 mass1 collision_normal *
        wallQuadB velocity1 mass1 collision_normal -
        4 * wallQuadA collision_normal *
        wallQuadC velocity1 mass1 collision_normal wall_heat_conductivity
          sampled_temperature direction < 0 →
      particles_vs_wall_collision_separation_velocity velocity1 mass1
        collision_normal wall_temperature wall_heat_conductivity
        sampled_temperature = none) ∧
    (0 ≤ wallQuadB velocity1 mass1 collision_normal *
        wallQuadB velocity1 mass1 collision_normal -
        4 * wallQuadA collision_normal *
        wallQuadC velocity1 mass1 collision_normal wall_heat_conductivity
          sampled_temperature direction →
     collision_normal ≠ Vec2.zero →
      ∃ dv : ℝ,
        wallQuadA collision_normal * dv ^ 2 +
          wallQuadB velocity1 mass1 collision_normal * dv +
          wallQuadC velocity1 mass1 collision_normal wall_heat_conductivity
            sampled_temperature direction = 0 ∧
        (∀ x : ℝ, wallQuadA collision_normal * x ^ 2 +
          wallQuadB velocity1 mass1 collision_normal * x +
          wallQuadC velocity1 mass1 collision_normal wall_heat_conductivity
            sampled_temperature direction = 0 → |dv| ≤ |x|) ∧
        particles_vs_wall_collision_separation_velocity velocity1 mass1
          collision_normal wall_temperature wall_heat_conductivity
          sampled_temperature =
          some (wall_bounce_velocity velocity1 mass1 collision_normal +
            collision_normal * dv) ∧
        (wall_bounce_velocity velocity1 mass1 collision_normal +
          collision_normal * dv).length =
          wall_expected_velocity velocity1 mass1 collision_normal
            wall_heat_conductivity sampled_temperature direction) := by
  set a := wallQuadA collision_normal with hA
  set b := wallQuadB velocity1 mass1 collision_normal with hB
  set c := wallQuadC velocity1 mass1 collision_normal wall_heat_conductivity
    sampled_temperature direction with hC
  have key : particles_vs_wall_collision_separation_velocity velocity1 mass1
      collision_normal wall_temperature wall_heat_conductivity
      sampled_temperature =
      match solve_quadratic a b c with
      | none => none
      | some (dv1, dv2) =>
          some (wall_bounce_velocity velocity1 mass1 collision_normal +
            collision_normal * (if |dv1| < |dv2| then dv1 else dv2)) := by
    unfold particles_vs_wall_collision_separation_velocity
    rw [hdir]
  constructor
  · intro hneg
    rw [key, solve_quadratic_none _ _ _ hneg]
  · intro hpos hn0
    have ha : a ≠ 0 := by
      rw [hA]
      unfold wallQuadA
      intro h
      apply hn0
      have hx : collision_normal.x = 0 := by
        nlinarith [mul_self_nonneg collision_normal.x,
          mul_self_nonneg collision_normal.y]
      have hy : collision_normal.y = 0 := by
        nlinarith [mul_self_nonneg collision_normal.x,
          mul_self_nonneg collision_normal.y]
      cases collision_normal
      simp_all [Vec2.zero]
    have hq : solve_quadratic a b c =
        some ((-b + Real.sqrt (b * b - 4 * a * c)) / (2 * a),
              (-b - Real.sqrt (b * b - 4 * a * c)) / (2 * a)) :=
      solve_quadratic_eval a b c (b * b - 4 * a * c)
        (Real.sqrt (b * b - 4 * a * c)) rfl hpos rfl
    obtain ⟨hroot1, hroot2⟩ := solve_quadratic_roots ha hq
    set R1 := (-b + Real.sqrt (b * b - 4 * a * c)) / (2 * a) with hR1
    set R2 := (-b - Real.sqrt (b * b - 4 * a * c)) / (2 * a) with hR2
    set dv := if |R1| < |R2| then R1 else R2 with hdv
    have hdvroot : a * dv ^ 2 + b * dv + c = 0 := by
      rw [hdv]
      by_cases h : |R1| < |R2|
      · rw [if_pos h]
        exact hroot1
      · rw [if_neg h]
        exact hroot2
    refine ⟨dv, hdvroot, ?_, ?_, ?_⟩
    · intro x hx
      rcases quadratic_root_cases ha hq hx with h | h
      · subst h
        rw [hdv]
        by_cases h' : |R1| < |R2|
        · rw [if_pos h']
        · rw [if_neg h']
          exact not_lt.mp h'
      · subst h
        rw [hdv]
        by_cases h' : |R1| < |R2|
        · rw [if_pos h']
          exact le_of_lt h'
        · rw [if_neg h']
    · rw [key, hq]
    · have hE : 0 ≤ wall_expected_velocity velocity1 mass1 collision_normal
          wall_heat_conductivity sampled_temperature direction :=
        Real.sqrt_nonneg _
      have hc' : a * dv ^ 2 + b * dv + c = 0 := hdvroot
      rw [hA] at hc'
      rw [hB] at hc'
      rw [hC] at hc'
      unfold wallQuadA wallQuadB wallQuadC at hc'
      have hcomp : ((wall_bounce_velocity velocity1 mass1 collision_normal).x +
            collision_normal.x * dv) ^ 2 +
          ((wall_bounce_velocity velocity1 mass1 collision_normal).y +
            collision_normal.y * dv) ^ 2 =
          (wall_expected_velocity velocity1 mass1 collision_normal
            wall_heat_conductivity sampled_temperature direction) ^ 2 := by
        linear_combination hc'
      show Real.sqrt _ = _
      dsimp only [Vec2.add_def, Vec2.hmul_def]
      rw [hcomp]
      exact Real.sqrt_sq hE

/-- C6 witness: a unit-mass-free concrete instance (mass 2, head-on hit
with zero conductivity) where the quadratic is solved and the resulting
speed matches the target. -/
theorem wall_resolver_energy_matching_witness :
    Vec2.normalized ⟨0, -2⟩ = some ⟨0, -1⟩ ∧
    ((wallQuadB ⟨0, -2⟩ 2 ⟨0, 1⟩ * wallQuadB ⟨0, -2⟩ 2 ⟨0, 1⟩ -
        4 * wallQuadA ⟨0, 1⟩ *
        wallQuadC ⟨0, -2⟩ 2 ⟨0, 1⟩ 0 5 ⟨0, -1⟩ < 0 →
      particles_vs_wall_collision_separation_velocity ⟨0, -2⟩ 2 ⟨0, 1⟩ 3 0 5 =
        none) ∧
    (0 ≤ wallQuadB ⟨0, -2⟩ 2 ⟨0, 1⟩ * wallQuadB ⟨0, -2⟩ 2 ⟨0, 1⟩ -
        4 * wallQuadA ⟨0, 1⟩ *
        wallQuadC ⟨0, -2⟩ 2 ⟨0, 1⟩ 0 5 ⟨0, -1⟩ →
     (⟨0, 1⟩ : Vec2) ≠ Vec2.zero →
      ∃ dv : ℝ,
        wallQuadA ⟨0, 1⟩ * dv ^ 2 + wallQuadB ⟨0, -2⟩ 2 ⟨0, 1⟩ * dv +
          wallQuadC ⟨0, -2⟩ 2 ⟨0, 1⟩ 0 5 ⟨0, -1⟩ = 0 ∧
        (∀ x : ℝ, wallQuadA ⟨0, 1⟩ * x ^ 2 + wallQuadB ⟨0, -2⟩ 2 ⟨0, 1⟩ * x +
          wallQuadC ⟨0, -2⟩ 2 ⟨0, 1⟩ 0 5 ⟨0, -1⟩ = 0 → |dv| ≤ |x|) ∧
        particles_vs_wall_collision_separation_velocity ⟨0, -2⟩ 2 ⟨0, 1⟩ 3 0 5 =
          some (wall_bounce_velocity ⟨0, -2⟩ 2 ⟨0, 1⟩ + (⟨0, 1⟩ : Vec2) * dv) ∧
        (wall_bounce_velocity ⟨0, -2⟩ 2 ⟨0, 1⟩ + (⟨0, 1⟩ : Vec2) * dv).length =
          wall_expected_velocity ⟨0, -2⟩ 2 ⟨0, 1⟩ 0 5 ⟨0, -1⟩)) := by
  have hd : Vec2.normalized ⟨0, -2⟩ = some ⟨0, -1⟩ := by
    rw [normalized_eval ⟨0, -2⟩ 2 (by norm_num) (by norm_num)]
    norm_num
  exact ⟨hd, wall_resolver_energy_matching ⟨0, -2⟩ 2 ⟨0, 1⟩ 3 0 5 ⟨0, -1⟩ hd⟩

/-- C9: `resolve` never changes a particle's class id: the scheduler
assigns only positions and velocities, so whenever the fuelled loop
completes, every particle's class id in the result equals its input
value (and the particle count is unchanged). -/
theorem resolve_preserves_class (particles : List Particle)
    (class_map : ClassId → ParticleClass) (walls : List Wall) (timestep : ℝ)
    (pvp : Particle → Particle → Vec2 → Vec2 × Vec2)
    (pvw : Particle → Wall → Vec2 → Vec2) (fuel : ℕ) (final : List Particle)
    (h : resolve particles class_map walls timestep pvp pvw fuel = some final) :
    final.length = particles.length ∧
    ∀ i, (final.getD i default).class_id =
      (particles.getD i default).class_id := by
  unfold resolve at h
  exact resolveLoop_classes class_map walls timestep pvp pvw fuel
    ⟨particles, List.replicate particles.length 0,
     initQueue particles class_map walls timestep⟩ final (by simp) h

/-- C9 witness: a one-particle scene resolved to completion keeps the
class id 7. -/
theorem resolve_preserves_class_witness :
    resolve [⟨⟨0, 0⟩, ⟨0, 0⟩, 7⟩] (fun _ => ⟨"c", 1, 1⟩) [] 1
      (fun p q _ => (p.velocity, q.velocity)) (fun p _ _ => p.velocity) 1 =
      some [⟨⟨0, 0⟩, ⟨0, 0⟩, 7⟩] ∧
    (([⟨⟨0, 0⟩, ⟨0, 0⟩, 7⟩] : List Particle).length =
      ([⟨⟨0, 0⟩, ⟨0, 0⟩, 7⟩] : List Particle).length ∧
    ∀ i, (([⟨⟨0, 0⟩, ⟨0, 0⟩, 7⟩] : List Particle).getD i default).class_id =
      (([⟨⟨0, 0⟩, ⟨0, 0⟩, 7⟩] : List Particle).getD i default).class_id) := by
  have h : resolve [⟨⟨0, 0⟩, ⟨0, 0⟩, 7⟩] (fun _ => ⟨"c", 1, 1⟩) [] 1
      (fun p q _ => (p.velocity, q.velocity)) (fun p _ _ => p.velocity) 1 =
      some [⟨⟨0, 0⟩, ⟨0, 0⟩, 7⟩] := by
    show some (finalAdvance 1 ⟨[⟨⟨0, 0⟩, ⟨0, 0⟩, 7⟩], List.replicate 1 0, []⟩) = _
    unfold finalAdvance
    rw [show List.replicate 1 (0:ℝ) = [0] from rfl]
    norm_num [List.zipWith]
  exact ⟨h, resolve_preserves_class _ _ _ _ _ _ _ _ h⟩

/-- C7: `resolve` does not terminate for every finite particle array,
wall array and time budget: with the caller-supplied velocity resolver
that returns the incoming velocities unchanged, two approaching
particles produce a collision at time 2 whose resolution regenerates
the same pair collision within the time tolerance window, so the main
loop never reaches the empty-queue state — for every amount of fuel the
fuelled loop fails to drain. -/
theorem resolve_nonterminating :
    ∀ fuel : ℕ, resolve [⟨⟨0, 0⟩, ⟨1, 0⟩, 1⟩, ⟨⟨4, 0⟩, ⟨0, 0⟩, 1⟩]
      (fun _ => ⟨"c", 1, 1⟩) [] 10
      (fun p q _ => (p.velocity, q.velocity)) (fun p _ _ => p.velocity)
      fuel = none := by
  intro fuel
  unfold resolve
  rw [show ([⟨⟨0, 0⟩, ⟨1, 0⟩, 1⟩, ⟨⟨4, 0⟩, ⟨0, 0⟩, 1⟩] : List Particle).length = 2
    from rfl]
  rw [cex_initQueue]
  cases fuel with
  | zero => rfl
  | succ n =>
      rw [resolveLoop]
      rw [show popMinCollision [⟨0, OtherObject.particle 1, ⟨1, 0⟩, 2⟩] =
        some (⟨0, OtherObject.particle 1, ⟨1, 0⟩, 2⟩, []) from rfl]
      dsimp only []
      rw [cex_step_init]
      exact cex_loop_s1 n

/-- C10: when the incoming velocity has numerically zero length (its
normalize-or-none returns `none`), the particle-vs-wall resolution
returns the input velocity unchanged, independent of mass, normal, wall
temperature, conductivity and the sampled thermal value. -/
theorem wall_resolver_zero_velocity (velocity1 : Vec2) (mass1 : ℝ)
    (collision_normal : Vec2)
    (wall_temperature wall_heat_conductivity sampled_temperature : ℝ)
    (h : velocity1.normalized = none) :
    particles_vs_wall_collision_separation_velocity velocity1 mass1
      collision_normal wall_temperature wall_heat_conductivity
      sampled_temperature = some velocity1 := by
  simp only [particles_vs_wall_collision_separation_velocity, h]

/-- C10 witness: the zero velocity is returned unchanged. -/
theorem wall_resolver_zero_velocity_witness :
    Vec2.normalized ⟨0, 0⟩ = none ∧
    particles_vs_wall_collision_separation_velocity ⟨0, 0⟩ 1 ⟨0, 1⟩ 3 (1 / 2) 2 =
      some ⟨0, 0⟩ := by
  have h : Vec2.normalized ⟨0, 0⟩ = none := by
    simp [Vec2.normalized, Vec2.length]
  exact ⟨h, wall_resolver_zero_velocity _ _ _ _ _ _ h⟩

end

end MSim
